import Mathlib

/-!
Verification of the namespaced persistent cache store
(`apprise/persistent_store.py`).

This file gives a shallow embedding, in Lean 4, of the data model and the
operations of `persistent_store.py`: the `CacheObject` entry type together
with its codec (`json()` / `instantiate`), the SHA1 checksum over the
canonical string rendering, base64 encoding/decoding as performed by
Python's `base64` module, the token-validation regular expression, and the
`PersistentStore` state machine (load, set, `__setitem__`, prune, flush,
raw `write`) over an abstract per-namespace filesystem with injectable
step failures.

Modelling conventions:
* Instants (datetime objects used for expiry) are rationals counting
  seconds since the Unix epoch; Python datetimes have microsecond
  resolution, so the in-memory arithmetic is exact.  The expiry's trip
  through the cache file is NOT exact: `total_seconds()` returns a
  binary64 float and `fromtimestamp` rounds once more, both modelled
  explicitly (`roundDouble` and friends below) — a far-future expiry
  with microseconds is changed by the conversion.
* `datetime` *values* stored in the cache are kept as their component
  representation (year .. microsecond, optional utc-offset in minutes),
  which is exactly Python's representation; `isoformat` and
  `fromisoformat` are implemented over the components.
* Python floats appearing as cache values are modelled as rationals; the
  code never computes with them (they pass through serialization
  unchanged), so no floating-point rounding is involved.
* Machine-level hashing (`hashlib.sha1`) is implemented in full
  (`sha1Hex` below) over the UTF-8 bytes of the rendered string.
-/

namespace PersistentStoreModel

/-- Storage modes, from `apprise/common.py` (not part of the shown sources).
Modelled from the spec: `AUTO` (flush at teardown), `FLUSH` (synchronous
flush after each mutation), `MEMORY` (never touches disk);
`PERSISTENT_STORE_MODES[0]` is `AUTO`, the default when a path is given. -/
inductive Mode where
  | auto
  | flush
  | memory
deriving DecidableEq, Repr

/-- A JSON scalar value as produced by `json.loads` / consumed by
`json.dumps` for the fields of a serialized cache entry.  (The cache
file's entry maps hold only scalars: the encoded value, the expiry
seconds, the class tag and the checksum.) -/
inductive JValue where
  | jstr (s : String)
  | jint (n : Int)
  | jfloat (q : ℚ)
  | jbool (b : Bool)
  | jnull
deriving DecidableEq, Repr

/-- A Python `datetime` value held in the cache, in component form
(which is Python's own representation).  `offset` is the tzinfo's
utcoffset in minutes (`none` for a naive datetime). -/
structure PyDatetime where
  year : Nat
  month : Nat
  day : Nat
  hour : Nat
  minute : Nat
  second : Nat
  micro : Nat
  offset : Option Int
deriving DecidableEq, Repr

/-- Gregorian leap year. -/
def isLeapYear (y : Nat) : Bool := y % 4 = 0 ∧ (y % 100 ≠ 0 ∨ y % 400 = 0)

/-- Days in a Gregorian month. -/
def daysInMonth (y m : Nat) : Nat :=
  if m = 2 then (if isLeapYear y then 29 else 28)
  else if m = 4 ∨ m = 6 ∨ m = 9 ∨ m = 11 then 30
  else 31

/-- Range validity of a Python datetime: Python itself enforces these
bounds at construction, so every `datetime` object satisfies them. -/
def PyDatetime.valid (d : PyDatetime) : Prop :=
  1 ≤ d.year ∧ d.year ≤ 9999 ∧ 1 ≤ d.month ∧ d.month ≤ 12 ∧
  1 ≤ d.day ∧ d.day ≤ daysInMonth d.year d.month ∧
  d.hour ≤ 23 ∧ d.minute ≤ 59 ∧
  d.second ≤ 59 ∧ d.micro ≤ 999999 ∧
  (∀ o ∈ d.offset, o.natAbs < 1440)

instance (d : PyDatetime) : Decidable d.valid := by
  unfold PyDatetime.valid; infer_instance

/-- The closed set of supported cache-value kinds (spec section 3):
string, integer, float, boolean, null, byte-sequence, absolute
timestamp.  Byte sequences are lists of byte values. -/
inductive PyValue where
  | str (s : String)
  | int (n : Int)
  | float (q : ℚ)
  | bool (b : Bool)
  | pynone
  | bytes (l : List Nat)
  | datetime (d : PyDatetime)
deriving DecidableEq, Repr

/-- `value.__class__.__name__` for each supported kind. -/
def pyClassName : PyValue → String
  | .str _ => "str"
  | .int _ => "int"
  | .float _ => "float"
  | .bool _ => "bool"
  | .pynone => "NoneType"
  | .bytes _ => "bytes"
  | .datetime _ => "datetime"

/-- The kinds of argument accepted by `CacheObject.set_expiry` (and by the
`expires` constructor argument): a datetime (here: its instant, as
rational seconds since the epoch, for an aware datetime), `None`, a bool,
or a numeric seconds-from-now offset.  Any other Python type raises
`AttributeError`; such calls are outside this model (no claim exercises
them). -/
inductive ExpArg where
  | noneArg
  | boolArg (b : Bool)
  | numArg (q : ℚ)
  | dtArg (t : ℚ)
deriving DecidableEq, Repr

/-- Python truthiness of an `expires` argument, as used by
`CacheObject.__init__`'s `if expires:` guard: `None`/`False`/`0` are
falsy; any datetime is truthy. -/
def ExpArg.truthy : ExpArg → Bool
  | .noneArg => false
  | .boolArg b => b
  | .numArg q => decide (q ≠ 0)
  | .dtArg _ => true

/-- `CacheObject.set_expiry(expires)`: a datetime is stored after
`astimezone(utc)` (identity on the instant), `None`/`False` clear the
expiry, `True` forces expiry to `now`, a number is seconds from `now`. -/
def setExpiry (now : ℚ) : ExpArg → Option ℚ
  | .dtArg t => some t
  | .noneArg => none
  | .boolArg b => if b then some now else none
  | .numArg q => some (now + q)

/-- The in-memory cache entry: `CacheObject`'s fields.  `className` is
the `__class_name` field recorded at construction/`set` time;
`expires` is the (UTC) expiry instant in seconds since the epoch. -/
structure CacheObject where
  value : PyValue
  className : String
  expires : Option ℚ
  persistent : Bool
deriving DecidableEq, Repr

/-- `CacheObject.__init__(value, expires=False, persistent=True)`:
records the value and its class name, sets the expiry only when the
`expires` argument is truthy, and coerces `persistent` to a bool. -/
def CacheObject.init (now : ℚ) (value : PyValue) (expires : ExpArg)
    (persistent : Bool) : CacheObject :=
  { value := value
    className := pyClassName value
    expires := if expires.truthy then setExpiry now expires else none
    persistent := persistent }

/-- `CacheObject.set(value, expires=None, persistent=None)`: replaces the
value (and class name); expiry and persistence are updated only when the
corresponding argument is not `None`.  (`expires = some a` models passing
a non-`None` expires argument; note `set` calls `set_expiry`
unconditionally then, unlike `__init__`'s truthiness guard.) -/
def CacheObject.setValue (now : ℚ) (co : CacheObject) (value : PyValue)
    (expires : Option ExpArg := none) (persistent : Option Bool := none) :
    CacheObject :=
  { value := value
    className := pyClassName value
    expires := match expires with
      | some a => setExpiry now a
      | none => co.expires
    persistent := persistent.getD co.persistent }

/-- `CacheObject.__bool__`: true iff the entry has not expired (no expiry,
or the expiry instant is strictly in the future). -/
def CacheObject.isLive (now : ℚ) (co : CacheObject) : Bool :=
  match co.expires with
  | none => true
  | some t => decide (t > now)

end PersistentStoreModel

namespace PersistentStoreModel

/-- Two-digit zero-padded decimal rendering (for in-range field values,
i.e. `n ≤ 99`, which Python's datetime fields always satisfy). -/
def pad2 (n : Nat) : String := String.mk [Nat.digitChar (n / 10), Nat.digitChar (n % 10)]

/-- Four-digit zero-padded decimal rendering (`n ≤ 9999`). -/
def pad4 (n : Nat) : String := pad2 (n / 100) ++ pad2 (n % 100)

/-- Six-digit zero-padded decimal rendering (`n ≤ 999999`), used for the
microsecond field. -/
def pad6 (n : Nat) : String := pad2 (n / 10000) ++ pad2 (n / 100 % 100) ++ pad2 (n % 100)

/-- Rendering of a utcoffset (in minutes) as `isoformat` appends it:
`±HH:MM` of the absolute value; empty for a naive datetime. -/
def offsetStr : Option Int → String
  | none => ""
  | some o =>
    (if o < 0 then "-" else "+") ++ pad2 (o.natAbs / 60) ++ ":" ++ pad2 (o.natAbs % 60)

/-- `datetime.isoformat()` / `str(datetime)` over the component
representation: `YYYY-MM-DD<sep>HH:MM:SS[.ffffff][±HH:MM]`, the
microsecond part omitted when zero.  `isoformat` uses `sep = 'T'`,
`str` uses `sep = ' '`. -/
def isoformatSep (sep : Char) (d : PyDatetime) : String :=
  pad4 d.year ++ "-" ++ pad2 d.month ++ "-" ++ pad2 d.day ++ String.mk [sep] ++
  pad2 d.hour ++ ":" ++ pad2 d.minute ++ ":" ++ pad2 d.second ++
  (if d.micro = 0 then "" else "." ++ pad6 d.micro) ++ offsetStr d.offset

def PyDatetime.isoformat (d : PyDatetime) : String := isoformatSep 'T' d

def PyDatetime.strRepr (d : PyDatetime) : String := isoformatSep ' ' d

/-- Howard Hinnant's `civil_from_days`: converts a count of days since
1970-01-01 to a Gregorian calendar date (the algorithm used by every
standard epoch-to-calendar conversion, including Python's). -/
def civilFromDays (z0 : Int) : Int × Nat × Nat :=
  let z := z0 + 719468
  let era := z.fdiv 146097
  let doe := (z.fmod 146097).toNat
  let yoe := (doe - doe / 1460 + doe / 36524 - doe / 146096) / 365
  let y := era * 400 + yoe
  let doy := doe - (365 * yoe + yoe / 4 - yoe / 100)
  let mp := (5 * doy + 2) / 153
  let d := doy - (153 * mp + 2) / 5 + 1
  let m := if mp < 10 then mp + 3 else mp - 9
  (if m ≤ 2 then y + 1 else y, m, d)

/-- `isoformat()` of the aware UTC datetime at instant `q` (rational
seconds since the Unix epoch): this is how `CacheObject.__str__` renders
a non-`None` expiry (`self.__expires.isoformat()`), always ending in the
UTC offset `+00:00`. -/
def utcIso (q : ℚ) : String :=
  let totalMicro : Int := Rat.floor (q * 1000000)
  let micro : Nat := (totalMicro.fmod 1000000).toNat
  let totalSec : Int := totalMicro.fdiv 1000000
  let secOfDay : Nat := (totalSec.fmod 86400).toNat
  let days : Int := totalSec.fdiv 86400
  let c := civilFromDays days
  pad4 c.1.toNat ++ "-" ++ pad2 c.2.1 ++ "-" ++ pad2 c.2.2 ++ "T" ++
  pad2 (secOfDay / 3600) ++ ":" ++ pad2 (secOfDay / 60 % 60) ++ ":" ++
  pad2 (secOfDay % 60) ++
  (if micro = 0 then "" else "." ++ pad6 micro) ++ "+00:00"

/-- Lowercase two-hex-digit rendering of a byte. -/
def hex2 (b : Nat) : String := String.mk [Nat.digitChar (b / 16), Nat.digitChar (b % 16)]

/-- Python `repr` of a single byte inside a bytes literal with quote
character `quote`: printable ASCII stays itself; backslash, the quote,
tab, newline and carriage return are backslash-escaped; everything else
becomes a `\xhh` escape. -/
def byteEscape (quote : Nat) (b : Nat) : String :=
  if b = 92 then "\\\\"
  else if b = quote then "\\" ++ String.mk [Char.ofNat b]
  else if b = 9 then "\\t"
  else if b = 10 then "\\n"
  else if b = 13 then "\\r"
  else if 32 ≤ b ∧ b ≤ 126 then String.mk [Char.ofNat b]
  else "\\x" ++ hex2 b

/-- Python `repr`/`str` of a `bytes` object (what an f-string renders for
a bytes value): `b'...'`, using double quotes only when the content has a
single quote but no double quote. -/
def bytesRepr (l : List Nat) : String :=
  let quote : Nat := if l.contains 39 ∧ ¬ l.contains 34 then 34 else 39
  "b" ++ String.mk [Char.ofNat quote] ++
  String.join (l.map (byteEscape quote)) ++ String.mk [Char.ofNat quote]

/-- Exact decimal rendering of a rational modelling a Python float.
Python floats are dyadic rationals, so a finite decimal expansion always
exists; `repr(float)` prints the shortest decimal that round-trips, which
for the ideal rationals carried by this model is the exact expansion.
Used only as input to the checksum rendering, where all that matters is
that equal values render equally. -/
def floatRepr (q : ℚ) : String :=
  match (List.range 130).find? (fun k => (10 : Nat) ^ k % q.den = 0) with
  | some k =>
    let scaled : Nat := q.num.natAbs * (10 ^ k / q.den)
    let ip : Nat := scaled / 10 ^ k
    let fracDigits : List Char :=
      (String.mk ((Nat.toDigits 10 (scaled % 10 ^ k + 10 ^ k)).drop 1)).data
    let trimmed : List Char := (fracDigits.reverse.dropWhile (· = '0')).reverse
    (if q.num < 0 then "-" else "") ++ toString ip ++ "." ++
    (if trimmed.isEmpty then "0" else String.mk trimmed)
  | none => "q" ++ toString q.num ++ "/" ++ toString q.den

/-- The f-string rendering `f'{value}'` of each supported value kind, as
it appears inside `CacheObject.__str__`. -/
def valueRepr : PyValue → String
  | .str s => s
  | .int n => toString n
  | .float q => floatRepr q
  | .bool b => if b then "True" else "False"
  | .pynone => "None"
  | .bytes l => bytesRepr l
  | .datetime d => d.strRepr

/-- `CacheObject.__str__`: the canonical string rendering
`{class_name}:{+|-}:{value} expires: {never | isoformat}` over which the
checksum is computed. -/
def CacheObject.strRender (co : CacheObject) : String :=
  co.className ++ ":" ++ (if co.persistent then "+" else "-") ++ ":" ++
  valueRepr co.value ++ " expires: " ++
  (match co.expires with
   | none => "never"
   | some t => utcIso t)

end PersistentStoreModel

namespace PersistentStoreModel

/-- Truncation to a 32-bit word (Python/C sha1 arithmetic is mod 2^32). -/
def w32 (n : Nat) : Nat := n % 4294967296

/-- 32-bit left rotation. -/
def rotl (k n : Nat) : Nat := w32 ((n <<< k) ||| (n >>> (32 - k)))

/-- UTF-8 encoding of one character (`str.encode('utf-8')`). -/
def utf8EncodeChar (c : Char) : List Nat :=
  let n := c.toNat
  if n < 128 then [n]
  else if n < 2048 then [192 ||| (n >>> 6), 128 ||| (n &&& 63)]
  else if n < 65536 then
    [224 ||| (n >>> 12), 128 ||| ((n >>> 6) &&& 63), 128 ||| (n &&& 63)]
  else
    [240 ||| (n >>> 18), 128 ||| ((n >>> 12) &&& 63),
     128 ||| ((n >>> 6) &&& 63), 128 ||| (n &&& 63)]

/-- UTF-8 encoding of a string, as a list of byte values. -/
def utf8Bytes (s : String) : List Nat := s.data.flatMap utf8EncodeChar

/-- SHA-1 message padding: append `0x80`, zero bytes to 56 mod 64, then
the original bit length as a 64-bit big-endian integer. -/
def sha1Pad (msg : List Nat) : List Nat :=
  let len := msg.length
  let bitLen := len * 8
  let padZeros := (55 - len % 64 + 64) % 64
  msg ++ [128] ++ List.replicate padZeros 0 ++
    (List.range 8).map (fun i => bitLen >>> ((7 - i) * 8) &&& 255)

/-- Big-endian grouping of bytes into 32-bit words. -/
def toWords : List Nat → List Nat
  | a :: b :: c :: d :: rest => (((a * 256 + b) * 256 + c) * 256 + d) :: toWords rest
  | _ => []

/-- SHA-1 message schedule: extend 16 words to 80. -/
def sha1Schedule (w16 : List Nat) : List Nat :=
  (List.range 64).foldl
    (fun acc _ =>
      let n := acc.length
      acc ++ [rotl 1 ((acc.getD (n - 3) 0) ^^^ (acc.getD (n - 8) 0) ^^^
                      (acc.getD (n - 14) 0) ^^^ (acc.getD (n - 16) 0))])
    w16

/-- SHA-1 round function (choose / parity / majority / parity). -/
def sha1F (t b c d : Nat) : Nat :=
  if t < 20 then (b &&& c) ||| ((4294967295 ^^^ b) &&& d)
  else if t < 40 then b ^^^ c ^^^ d
  else if t < 60 then (b &&& c) ||| (b &&& d) ||| (c &&& d)
  else b ^^^ c ^^^ d

/-- SHA-1 round constants. -/
def sha1K (t : Nat) : Nat :=
  if t < 20 then 1518500249 else if t < 40 then 1859775393
  else if t < 60 then 2400959708 else 3395469782

/-- SHA-1 compression of a single 64-byte block into the running state. -/
def sha1Block (h : Nat × Nat × Nat × Nat × Nat) (block : List Nat) :
    Nat × Nat × Nat × Nat × Nat :=
  let ws := sha1Schedule (toWords block)
  let fin := (List.range 80).foldl
    (fun st t =>
      let temp := w32 (rotl 5 st.1 + sha1F t st.2.1 st.2.2.1 st.2.2.2.1 +
                       st.2.2.2.2 + sha1K t + ws.getD t 0)
      (temp, st.1, rotl 30 st.2.1, st.2.2.1, st.2.2.2.1))
    h
  (w32 (h.1 + fin.1), w32 (h.2.1 + fin.2.1), w32 (h.2.2.1 + fin.2.2.1),
   w32 (h.2.2.2.1 + fin.2.2.2.1), w32 (h.2.2.2.2 + fin.2.2.2.2))

/-- Split a byte list into 64-byte blocks (fuelled structural recursion so
that it reduces inside the kernel; the fuel `l.length` always suffices). -/
def chunks64Aux : Nat → List Nat → List (List Nat)
  | 0, _ => []
  | _, [] => []
  | fuel + 1, a :: l => (a :: l).take 64 :: chunks64Aux fuel ((a :: l).drop 64)

def chunks64 (l : List Nat) : List (List Nat) := chunks64Aux l.length l

/-- Lowercase hex rendering of a 32-bit word. -/
def hex8 (n : Nat) : String :=
  String.mk ((List.range 8).map fun i => Nat.digitChar (n >>> ((7 - i) * 4) &&& 15))

/-- `hashlib.sha1(bytes).hexdigest()`: the full 40-hex-character SHA-1
digest of a byte sequence. -/
def sha1Hex (msg : List Nat) : String :=
  let fin := (chunks64 (sha1Pad msg)).foldl sha1Block
    (1732584193, 4023233417, 2562383102, 271733878, 3285377520)
  hex8 fin.1 ++ hex8 fin.2.1 ++ hex8 fin.2.2.1 ++ hex8 fin.2.2.2.1 ++ hex8 fin.2.2.2.2

/-- `CacheObject.sha1()`: the SHA-1 hexdigest of the UTF-8 encoding of the
canonical string rendering `str(self)`. -/
def CacheObject.sha1 (co : CacheObject) : String := sha1Hex (utf8Bytes co.strRender)

/-- `self.sha1()[:6]`: the 6-hex-character checksum stored in (and
verified against) the serialized entry. -/
def CacheObject.sha1six (co : CacheObject) : String := co.sha1.take 6

/-- Validation of the SHA-1 implementation against the standard test
vector `sha1("abc")`. -/
theorem sha1Hex_abc :
    sha1Hex (utf8Bytes "abc") = "a9993e364706816aba3e25717850c26c9cd0d89d" := by
  set_option maxRecDepth 10000 in decide

end PersistentStoreModel

namespace PersistentStoreModel

/-- The standard base64 alphabet character for a 6-bit value. -/
def b64Char (n : Nat) : Char :=
  if n < 26 then Char.ofNat (65 + n)
  else if n < 52 then Char.ofNat (97 + (n - 26))
  else if n < 62 then Char.ofNat (48 + (n - 52))
  else if n = 62 then '+' else '/'

/-- The 6-bit value of a base64 alphabet character (`none` for
non-alphabet characters). -/
def b64Val (c : Char) : Option Nat :=
  let n := c.toNat
  if 65 ≤ n ∧ n ≤ 90 then some (n - 65)
  else if 97 ≤ n ∧ n ≤ 122 then some (n - 97 + 26)
  else if 48 ≤ n ∧ n ≤ 57 then some (n - 48 + 52)
  else if c = '+' then some 62
  else if c = '/' then some 63
  else none

/-- Membership in the standard base64 alphabet. -/
def isB64Char (c : Char) : Bool := (b64Val c).isSome

/-- Core of `base64.b64encode`: groups of three bytes become four
alphabet characters; a trailing group of one or two bytes is padded
with `=`. -/
def b64encodeCore : List Nat → List Char
  | [] => []
  | [a] => [b64Char (a / 4), b64Char (a % 4 * 16), '=', '=']
  | [a, b] => [b64Char (a / 4), b64Char (a % 4 * 16 + b / 16), b64Char (b % 16 * 4), '=']
  | a :: b :: c :: rest =>
      b64Char (a / 4) :: b64Char (a % 4 * 16 + b / 16) ::
      b64Char (b % 16 * 4 + c / 64) :: b64Char (c % 64) :: b64encodeCore rest

/-- `base64.b64encode(bytes).decode('utf-8')`, as the `CacheJSONEncoder`
applies it to a bytes value. -/
def b64encode (l : List Nat) : String := String.mk (b64encodeCore l)

/-- Quad-at-a-time decoding as `binascii.a2b_base64` performs it in
non-strict mode.  Padding terminates the data and must complete the
final quad; crucially, the low bits of the final character that do not
contribute to an output byte are discarded *without* checking that they
are zero (CPython behaviour), so distinct encodings can decode to the
same bytes.  (Inputs with data after padding are rejected here; CPython's
legacy decoder partly tolerates them, but no code path in the repository
produces them.) -/
def b64decodeQuads : List Char → Option (List Nat)
  | [] => some []
  | c1 :: c2 :: c3 :: c4 :: rest =>
    match b64Val c1, b64Val c2 with
    | some v1, some v2 =>
      if c3 = '=' then
        if c4 = '=' ∧ rest = [] then some [v1 * 4 + v2 / 16] else none
      else
        match b64Val c3 with
        | some v3 =>
          if c4 = '=' then
            if rest = [] then some [v1 * 4 + v2 / 16, v2 % 16 * 16 + v3 / 4] else none
          else
            match b64Val c4 with
            | some v4 =>
              (b64decodeQuads rest).map
                (fun tail => (v1 * 4 + v2 / 16) :: (v2 % 16 * 16 + v3 / 4) ::
                             (v3 % 4 * 64 + v4) :: tail)
            | none => none
        | none => none
    | _, _ => none
  | _ => none

/-- `base64.b64decode(str)` with `validate=False` (the default, as
`CacheObject.instantiate` calls it): the string is ASCII-encoded
(non-ASCII raises `ValueError`, modelled as `none`), characters outside
the alphabet and `=` are discarded, and the rest is decoded. -/
def b64decode (s : String) : Option (List Nat) :=
  if s.data.all (fun c => c.toNat < 128) then
    b64decodeQuads (s.data.filter (fun c => isB64Char c || c == '='))
  else none

theorem b64Val_b64Char : ∀ n < 64, b64Val (b64Char n) = some n := by decide

theorem b64Char_ne_eq : ∀ n < 64, b64Char n ≠ '=' := by decide

theorem b64Char_ascii : ∀ n < 64, (b64Char n).toNat < 128 := by decide

theorem isB64Char_b64Char : ∀ n < 64, isB64Char (b64Char n) = true := by decide

example : b64encode [65] = "QQ==" := by decide
example : b64decode "QR==" = some [65] := by decide

/-- Every character emitted by the encoder is in the alphabet or `=`,
and is ASCII. -/
theorem encodeCharOk (n : Nat) (hn : n < 64) :
    (isB64Char (b64Char n) || b64Char n == '=') = true ∧ (b64Char n).toNat < 128 :=
  ⟨by simp [isB64Char_b64Char n hn], b64Char_ascii n hn⟩

theorem b64encodeCore_all (l : List Nat) (h : ∀ b ∈ l, b < 256) :
    ∀ c ∈ b64encodeCore l, (isB64Char c || c == '=') = true ∧ c.toNat < 128 := by
  induction l using b64encodeCore.induct with
  | case1 => simp [b64encodeCore]
  | case2 a =>
    have ha : a < 256 := h a (by simp)
    have h1 : a / 4 < 64 := by omega
    have h2 : a % 4 * 16 < 64 := by omega
    simp only [b64encodeCore, List.mem_cons, List.not_mem_nil, or_false]
    rintro c (rfl | rfl | rfl | rfl)
    · exact encodeCharOk _ h1
    · exact encodeCharOk _ h2
    · exact ⟨by simp, by decide⟩
    · exact ⟨by simp, by decide⟩
  | case3 a b =>
    have ha : a < 256 := h a (by simp)
    have hb : b < 256 := h b (by simp)
    have h1 : a / 4 < 64 := by omega
    have h2 : a % 4 * 16 + b / 16 < 64 := by omega
    have h3 : b % 16 * 4 < 64 := by omega
    simp only [b64encodeCore, List.mem_cons, List.not_mem_nil, or_false]
    rintro c (rfl | rfl | rfl | rfl)
    · exact encodeCharOk _ h1
    · exact encodeCharOk _ h2
    · exact encodeCharOk _ h3
    · exact ⟨by simp, by decide⟩
  | case4 a b cc rest ih =>
    have ha : a < 256 := h a (by simp)
    have hb : b < 256 := h b (by simp)
    have hc : cc < 256 := h cc (by simp)
    have h1 : a / 4 < 64 := by omega
    have h2 : a % 4 * 16 + b / 16 < 64 := by omega
    have h3 : b % 16 * 4 + cc / 64 < 64 := by omega
    have h4 : cc % 64 < 64 := by omega
    have ih2 := ih (fun x hx => h x (by simp [hx]))
    simp only [b64encodeCore, List.mem_cons]
    rintro c (rfl | rfl | rfl | rfl | hcmem)
    · exact encodeCharOk _ h1
    · exact encodeCharOk _ h2
    · exact encodeCharOk _ h3
    · exact encodeCharOk _ h4
    · exact ih2 c hcmem

/-- Decoding inverts encoding on byte lists. -/
theorem b64decode_b64encode (l : List Nat) (h : ∀ b ∈ l, b < 256) :
    b64decode (b64encode l) = some l := by
  have hall := b64encodeCore_all l h
  have hascii : (b64encodeCore l).all (fun c => c.toNat < 128) = true := by
    rw [List.all_eq_true]; exact fun c hc => by simpa using (hall c hc).2
  have hfilter : (b64encodeCore l).filter (fun c => isB64Char c || c == '=') = b64encodeCore l :=
    List.filter_eq_self.mpr (fun c hc => (hall c hc).1)
  show b64decode (String.mk (b64encodeCore l)) = some l
  unfold b64decode
  rw [show (String.mk (b64encodeCore l)).data = b64encodeCore l from rfl, hascii, if_pos rfl, hfilter]
  clear hall hascii hfilter
  induction l using b64encodeCore.induct with
  | case1 => simp [b64encodeCore, b64decodeQuads]
  | case2 a =>
    have ha : a < 256 := h a (by simp)
    have h1 : a / 4 < 64 := by omega
    have h2 : a % 4 * 16 < 64 := by omega
    simp only [b64encodeCore, b64decodeQuads, b64Val_b64Char _ h1, b64Val_b64Char _ h2]
    simp
    omega
  | case3 a b =>
    have ha : a < 256 := h a (by simp)
    have hb : b < 256 := h b (by simp)
    have h1 : a / 4 < 64 := by omega
    have h2 : a % 4 * 16 + b / 16 < 64 := by omega
    have h3 : b % 16 * 4 < 64 := by omega
    simp only [b64encodeCore, b64decodeQuads, b64Val_b64Char _ h1, b64Val_b64Char _ h2,
      b64Val_b64Char _ h3]
    simp [b64Char_ne_eq _ h3]
    constructor
    · omega
    · omega
  | case4 a b cc rest ih =>
    have ha : a < 256 := h a (by simp)
    have hb : b < 256 := h b (by simp)
    have hc : cc < 256 := h cc (by simp)
    have h1 : a / 4 < 64 := by omega
    have h2 : a % 4 * 16 + b / 16 < 64 := by omega
    have h3 : b % 16 * 4 + cc / 64 < 64 := by omega
    have h4 : cc % 64 < 64 := by omega
    have ih2 := ih (fun x hx => h x (by simp [hx]))
    simp only [b64encodeCore, b64decodeQuads, b64Val_b64Char _ h1, b64Val_b64Char _ h2,
      b64Val_b64Char _ h3, b64Val_b64Char _ h4, ih2]
    simp [b64Char_ne_eq _ h3, b64Char_ne_eq _ h4]
    refine ⟨by omega, by omega, by omega⟩

end PersistentStoreModel

namespace PersistentStoreModel

/-- Parse a two-digit number from two characters. -/
def parse2 (a b : Char) : Option Nat :=
  if a.isDigit ∧ b.isDigit then some ((a.toNat - 48) * 10 + (b.toNat - 48)) else none

theorem parse2_pad2 : ∀ n < 100, parse2 (Nat.digitChar (n / 10)) (Nat.digitChar (n % 10)) = some n := by decide

def parseMicro : List Char → Option (Nat × List Char)
  | '.' :: u1 :: u2 :: u3 :: u4 :: u5 :: u6 :: rest => do
    let a ← parse2 u1 u2
    let b ← parse2 u3 u4
    let c ← parse2 u5 u6
    some (a * 10000 + b * 100 + c, rest)
  | rest => some (0, rest)

def parseOffset : List Char → Option (Option Int)
  | [] => some none
  | ['+', o1, o2, ':', o3, o4] => do
    let h ← parse2 o1 o2
    let m ← parse2 o3 o4
    if h ≤ 23 ∧ m ≤ 59 then some (some (h * 60 + m : Nat)) else none
  | ['-', o1, o2, ':', o3, o4] => do
    let h ← parse2 o1 o2
    let m ← parse2 o3 o4
    if h ≤ 23 ∧ m ≤ 59 then some (some (-(h * 60 + m : Nat) : Int)) else none
  | _ => none

/-- CPython's `datetime.fromisoformat` core (the format produced by
`datetime.isoformat`, which is the only format the repository itself
writes): `YYYY-MM-DD<any sep>HH:MM:SS[.ffffff][±HH:MM]`, with full range
validation of every component (Python constructs a real `datetime`, which
validates).  Malformed strings yield `none` (Python raises `ValueError`,
which `CacheObject.instantiate` catches).  Pre-3.11 Python also accepts a
few abbreviated forms (date only, 3-digit fractions) that no code path in
the repository produces; they are not modelled. -/
def fromisoformatAux : List Char → Option PyDatetime
  | y1 :: y2 :: y3 :: y4 :: '-' :: m1 :: m2 :: '-' :: d1 :: d2 :: _sep ::
    h1 :: h2 :: ':' :: n1 :: n2 :: ':' :: s1 :: s2 :: rest => do
    let yh ← parse2 y1 y2
    let yl ← parse2 y3 y4
    let mo ← parse2 m1 m2
    let dy ← parse2 d1 d2
    let hr ← parse2 h1 h2
    let mi ← parse2 n1 n2
    let se ← parse2 s1 s2
    let y := yh * 100 + yl
    let mc ← parseMicro rest
    let off ← parseOffset mc.2
    if 1 ≤ y ∧ 1 ≤ mo ∧ mo ≤ 12 ∧ 1 ≤ dy ∧ dy ≤ daysInMonth y mo ∧
       hr ≤ 23 ∧ mi ≤ 59 ∧ se ≤ 59 then
      some ⟨y, mo, dy, hr, mi, se, mc.1, off⟩
    else none
  | _ => none

def fromisoformat (s : String) : Option PyDatetime := fromisoformatAux s.data


/-- `(a ++ b).data = a.data ++ b.data` for strings. -/
theorem data_append (a b : String) : (a ++ b).data = a.data ++ b.data := rfl

/-- Bind of a `some` reduces. -/
theorem optSomeBind {α β : Type} (a : α) (f : α → Option β) : (some a >>= f) = f a := rfl

theorem parseMicro_nil : parseMicro [] = some (0, []) := rfl

theorem parseMicro_plus (l : List Char) : parseMicro ('+' :: l) = some (0, '+' :: l) := rfl

theorem parseMicro_minus (l : List Char) : parseMicro ('-' :: l) = some (0, '-' :: l) := rfl

theorem parseMicro_dot (u1 u2 u3 u4 u5 u6 : Char) (rest : List Char) :
    parseMicro ('.' :: u1 :: u2 :: u3 :: u4 :: u5 :: u6 :: rest) = (do
      let a ← parse2 u1 u2
      let b ← parse2 u3 u4
      let c ← parse2 u5 u6
      some (a * 10000 + b * 100 + c, rest)) := rfl

theorem parseOffset_nil : parseOffset [] = some none := rfl

theorem parseOffset_plus (o1 o2 o3 o4 : Char) :
    parseOffset ['+', o1, o2, ':', o3, o4] = (do
      let h ← parse2 o1 o2
      let m ← parse2 o3 o4
      if h ≤ 23 ∧ m ≤ 59 then some (some (h * 60 + m : Nat)) else none) := rfl

theorem parseOffset_minus (o1 o2 o3 o4 : Char) :
    parseOffset ['-', o1, o2, ':', o3, o4] = (do
      let h ← parse2 o1 o2
      let m ← parse2 o3 o4
      if h ≤ 23 ∧ m ≤ 59 then some (some (-(h * 60 + m : Nat) : Int)) else none) := rfl

/-- Round trip: parsing the rendered ISO form of a valid datetime (with
any separator) recovers the datetime. -/
theorem fromisoformatAux_isoformatSep (d : PyDatetime) (h : d.valid) (sep : Char) :
    fromisoformatAux (isoformatSep sep d).data = some d := by
  obtain ⟨yy, mo, dy, hr, mi, se, mic, off⟩ := d
  obtain ⟨h1, h2, h3, h4, h5, h6, h7, h8, h9, h10, h11⟩ := h
  simp only at h1 h2 h3 h4 h5 h6 h7 h8 h9 h10 h11
  have py : yy / 100 < 100 := by omega
  have py2 : yy % 100 < 100 := by omega
  have pmo : mo < 100 := by omega
  have pdy : dy < 100 := by
    have : daysInMonth yy mo ≤ 31 := by
      unfold daysInMonth; split <;> [split; split] <;> omega
    omega
  have phr : hr < 100 := by omega
  have pmi : mi < 100 := by omega
  have pse : se < 100 := by omega
  have hyy : yy / 100 * 100 + yy % 100 = yy := by omega
  have hmic1 : mic / 10000 < 100 := by omega
  have hmic2 : mic / 100 % 100 < 100 := by omega
  have hmic3 : mic % 100 < 100 := by omega
  simp only [isoformatSep, pad4, pad2, pad6, offsetStr]
  have hcond : 1 ≤ yy ∧ 1 ≤ mo ∧ mo ≤ 12 ∧ 1 ≤ dy ∧ dy ≤ daysInMonth yy mo ∧
      hr ≤ 23 ∧ mi ≤ 59 ∧ se ≤ 59 := ⟨h1, h3, h4, h5, h6, h7, h8, h9⟩
  by_cases hm : mic = 0 <;> rcases off with _ | o
  · subst hm
    simp only [reduceIte]
    simp only [data_append, String.mk, List.append_assoc, List.cons_append, List.nil_append, List.append_nil]
    simp only [fromisoformatAux, parse2_pad2 _ py, parse2_pad2 _ py2, parse2_pad2 _ pmo, parse2_pad2 _ pdy, parse2_pad2 _ phr, parse2_pad2 _ pmi, parse2_pad2 _ pse, parseMicro_nil, parseMicro_plus, parseMicro_minus, parseMicro_dot, parseOffset_nil, parseOffset_plus, parseOffset_minus, optSomeBind, hyy, if_pos hcond]
  · subst hm
    have hoff : o.natAbs < 1440 := h11 o rfl
    by_cases hneg : o < 0
    · have ho1 : o.natAbs / 60 < 100 := by omega
      have ho2 : o.natAbs % 60 < 100 := by omega
      simp only [reduceIte, if_pos hneg]
      have hoc : o.natAbs / 60 ≤ 23 ∧ o.natAbs % 60 ≤ 59 := ⟨by omega, by omega⟩
      simp only [data_append, String.mk, List.append_assoc, List.cons_append, List.nil_append, List.append_nil]
      simp only [fromisoformatAux, parse2_pad2 _ py, parse2_pad2 _ py2, parse2_pad2 _ pmo, parse2_pad2 _ pdy, parse2_pad2 _ phr, parse2_pad2 _ pmi, parse2_pad2 _ pse, parse2_pad2 _ ho1, parse2_pad2 _ ho2, parseMicro_nil, parseMicro_plus, parseMicro_minus, parseMicro_dot, parseOffset_nil, parseOffset_plus, parseOffset_minus, optSomeBind, hyy, if_pos hoc, if_pos hcond]
      simp only [Option.some.injEq, PyDatetime.mk.injEq, eq_self_iff_true, true_and, and_true]
      omega
    · have ho1 : o.natAbs / 60 < 100 := by omega
      have ho2 : o.natAbs % 60 < 100 := by omega
      simp only [reduceIte, if_neg hneg]
      have hoc : o.natAbs / 60 ≤ 23 ∧ o.natAbs % 60 ≤ 59 := ⟨by omega, by omega⟩
      simp only [data_append, String.mk, List.append_assoc, List.cons_append, List.nil_append, List.append_nil]
      simp only [fromisoformatAux, parse2_pad2 _ py, parse2_pad2 _ py2, parse2_pad2 _ pmo, parse2_pad2 _ pdy, parse2_pad2 _ phr, parse2_pad2 _ pmi, parse2_pad2 _ pse, parse2_pad2 _ ho1, parse2_pad2 _ ho2, parseMicro_nil, parseMicro_plus, parseMicro_minus, parseMicro_dot, parseOffset_nil, parseOffset_plus, parseOffset_minus, optSomeBind, hyy, if_pos hoc, if_pos hcond]
      simp only [Option.some.injEq, PyDatetime.mk.injEq, eq_self_iff_true, true_and, and_true]
      omega
  · simp only [if_neg hm]
    simp only [data_append, String.mk, List.append_assoc, List.cons_append, List.nil_append, List.append_nil]
    simp only [fromisoformatAux, parse2_pad2 _ py, parse2_pad2 _ py2, parse2_pad2 _ pmo, parse2_pad2 _ pdy, parse2_pad2 _ phr, parse2_pad2 _ pmi, parse2_pad2 _ pse, parse2_pad2 _ hmic1, parse2_pad2 _ hmic2, parse2_pad2 _ hmic3, parseMicro_nil, parseMicro_plus, parseMicro_minus, parseMicro_dot, parseOffset_nil, parseOffset_plus, parseOffset_minus, optSomeBind, hyy, if_pos hcond]
    simp only [Option.some.injEq, PyDatetime.mk.injEq, eq_self_iff_true, true_and, and_true]
    omega
  · have hoff : o.natAbs < 1440 := h11 o rfl
    by_cases hneg : o < 0
    · have ho1 : o.natAbs / 60 < 100 := by omega
      have ho2 : o.natAbs % 60 < 100 := by omega
      simp only [if_neg hm, if_pos hneg]
      have hoc : o.natAbs / 60 ≤ 23 ∧ o.natAbs % 60 ≤ 59 := ⟨by omega, by omega⟩
      simp only [data_append, String.mk, List.append_assoc, List.cons_append, List.nil_append, List.append_nil]
      simp only [fromisoformatAux, parse2_pad2 _ py, parse2_pad2 _ py2, parse2_pad2 _ pmo, parse2_pad2 _ pdy, parse2_pad2 _ phr, parse2_pad2 _ pmi, parse2_pad2 _ pse, parse2_pad2 _ hmic1, parse2_pad2 _ hmic2, parse2_pad2 _ hmic3, parse2_pad2 _ ho1, parse2_pad2 _ ho2, parseMicro_nil, parseMicro_plus, parseMicro_minus, parseMicro_dot, parseOffset_nil, parseOffset_plus, parseOffset_minus, optSomeBind, hyy, if_pos hoc, if_pos hcond]
      simp only [Option.some.injEq, PyDatetime.mk.injEq, eq_self_iff_true, true_and, and_true]
      omega
    · have ho1 : o.natAbs / 60 < 100 := by omega
      have ho2 : o.natAbs % 60 < 100 := by omega
      simp only [if_neg hm, if_neg hneg]
      have hoc : o.natAbs / 60 ≤ 23 ∧ o.natAbs % 60 ≤ 59 := ⟨by omega, by omega⟩
      simp only [data_append, String.mk, List.append_assoc, List.cons_append, List.nil_append, List.append_nil]
      simp only [fromisoformatAux, parse2_pad2 _ py, parse2_pad2 _ py2, parse2_pad2 _ pmo, parse2_pad2 _ pdy, parse2_pad2 _ phr, parse2_pad2 _ pmi, parse2_pad2 _ pse, parse2_pad2 _ hmic1, parse2_pad2 _ hmic2, parse2_pad2 _ hmic3, parse2_pad2 _ ho1, parse2_pad2 _ ho2, parseMicro_nil, parseMicro_plus, parseMicro_minus, parseMicro_dot, parseOffset_nil, parseOffset_plus, parseOffset_minus, optSomeBind, hyy, if_pos hoc, if_pos hcond]
      simp only [Option.some.injEq, PyDatetime.mk.injEq, eq_self_iff_true, true_and, and_true]
      omega

end PersistentStoreModel

namespace PersistentStoreModel

/-- The serialized form of one cache entry as it sits in the cache file's
JSON object: the four fields produced by `CacheObject.json()` after
`json.dumps` (with `CacheJSONEncoder`) and `json.loads` have mapped the
Python values to JSON scalars.  (`instantiate` also accepts maps whose
fields have been tampered with, hence every field is a `JValue`; a map
with a missing key raises `KeyError` inside `instantiate`, which is
caught — equivalent to a wrong-typed field, so not modelled separately.) -/
structure WireEntry where
  v : JValue
  x : JValue
  c : JValue
  chk : JValue
deriving DecidableEq, Repr

/-- `CacheJSONEncoder.default` combined with `json.dumps`'s native scalar
handling: bytes are base64-encoded, datetimes ISO-rendered, scalars pass
through unchanged. -/
def encodeValue : PyValue → JValue
  | .str s => .jstr s
  | .int n => .jint n
  | .float q => .jfloat q
  | .bool b => .jbool b
  | .pynone => .jnull
  | .bytes l => .jstr (b64encode l)
  | .datetime d => .jstr d.isoformat

/-- A JSON scalar read back as the Python value it denotes (the `v`
field when the class tag is neither `datetime` nor `bytes` is kept
exactly as `json.loads` produced it). -/
def jToPy : JValue → PyValue
  | .jstr s => .str s
  | .jint n => .int n
  | .jfloat q => .float q
  | .jbool b => .bool b
  | .jnull => .pynone

/-- Fuel-based floor binary logarithm: greatest `k` with `2 ^ k ≤ n`
(and `0` for `n ∈ {0, 1}`).  Structural fuel (any fuel `≥ n` suffices)
keeps the definition kernel-reducible. -/
def log2Aux : Nat → Nat → Nat
  | 0, _ => 0
  | fuel + 1, n => if 2 ≤ n then log2Aux fuel (n / 2) + 1 else 0

/-- `log2N n` is the greatest `k` with `2 ^ k ≤ n` (`0` for `n = 0`). -/
def log2N (n : Nat) : Nat :=
  log2Aux n n

/-- For `q ≠ 0`, the greatest `e : ℤ` with `2 ^ e ≤ |q|` — the binary
exponent of the binary64 value nearest `q`.  The first guess
`log2 |num| - log2 den` overshoots by at most one; the comparison
(stated over naturals, one of the two exponents being zero) corrects
it. -/
def qexp (q : ℚ) : Int :=
  let e : Int := (log2N q.num.natAbs : Int) - (log2N q.den : Int)
  if q.num.natAbs * 2 ^ (-e).toNat < q.den * 2 ^ e.toNat then e - 1 else e

/-- Round a rational to the nearest integer, ties to the even integer
(the rounding CPython applies both inside float operations and in
`_PyTime_ROUND_HALF_EVEN`). -/
def roundHalfEvenQ (x : ℚ) : Int :=
  let f : Int := Rat.floor x
  let r : ℚ := x - (f : ℚ)
  if 2 * r < 1 then f
  else if 1 < 2 * r then f + 1
  else if f % 2 = 0 then f else f + 1

/-- Round `q` to the nearest integer multiple of `2 ^ s`, ties to even. -/
def roundAtScale (q : ℚ) (s : Int) : ℚ :=
  if 0 ≤ s then
    ((roundHalfEvenQ (q / ((2 ^ s.toNat : ℕ) : ℚ)) : ℚ)) * ((2 ^ s.toNat : ℕ) : ℚ)
  else
    ((roundHalfEvenQ (q * ((2 ^ (-s).toNat : ℕ) : ℚ)) : ℚ)) / ((2 ^ (-s).toNat : ℕ) : ℚ)

/-- The binary64 (IEEE-754 double) value nearest `q`, ties to the even
mantissa: the mantissa carries 53 bits, so a value in
`[2 ^ e, 2 ^ (e+1))` is rounded at scale `2 ^ (e - 52)`.  Overflow and
the subnormal range are not modelled — every quantity the program sends
through a float (epoch offsets of datetimes, and their fractional parts
scaled by `10 ^ 6`) lies far inside the normal range. -/
def roundDouble (q : ℚ) : ℚ :=
  if q = 0 then 0 else roundAtScale q (qexp q - 52)

/-- `(expires - EPOCH).total_seconds()` (source line 121) for the exact
epoch offset `t`: the `timedelta` holds the offset exactly at
microsecond resolution, and `total_seconds()` divides the integer
microsecond count by `10 ** 6` with true division, whose result is the
binary64 nearest the exact quotient.  Large offsets therefore lose
their microseconds here. -/
def totalSecondsFloat (t : ℚ) : ℚ :=
  roundDouble t

/-- `datetime.fromtimestamp(d, timezone.utc)` (source line 139) on a
binary64 timestamp `d`, expressed as the instant it denotes: CPython
splits `d` with `modf` (integer part truncated toward zero), multiplies
the fractional part by `10 ** 6` in binary64, rounds that float to
integer microseconds with ties to even, and carries a microsecond
outside `[0, 10 ** 6)` into the seconds. -/
def fromtimestampInstant (d : ℚ) : ℚ :=
  let ip : Int := d.num.sign * ((d.num.natAbs / d.den : ℕ) : Int)
  let frac : ℚ := d - (ip : ℚ)
  let us0 : Int := roundHalfEvenQ (roundDouble (frac * 1000000))
  let su : Int × Int :=
    if 1000000 ≤ us0 then (ip + 1, us0 - 1000000)
    else if us0 < 0 then (ip - 1, us0 + 1000000)
    else (ip, us0)
  (su.1 : ℚ) + (su.2 : ℚ) / 1000000

/-- `CacheObject.json()`, composed with the `json.dumps` encoding that
puts it on the wire: `v` is the encoded value, `x` the expiry as float
seconds since the epoch or null (`(expires - EPOCH).total_seconds() if
expires else None`; a datetime is always truthy, so the guard is just a
`None` test — and `total_seconds()` returns a binary64 float, so the
stored expiry is the rounded `totalSecondsFloat`), `c` the recorded
class name, `!` the 6-hex-character SHA1 checksum of the canonical
rendering (computed over the EXACT in-memory expiry, before the float
rounding). -/
def CacheObject.jsonWire (co : CacheObject) : WireEntry :=
  { v := encodeValue co.value
    x := match co.expires with
      | some t => .jfloat (totalSecondsFloat t)
      | none => .jnull
    c := .jstr co.className
    chk := .jstr co.sha1six }

/-- The `expires` argument that `instantiate` passes to the `CacheObject`
constructor, reconstructed from the `x` field: `null` means no expiry; a
number becomes `datetime.fromtimestamp(x, timezone.utc)` — exact for an
integer, and the two-step float rounding `fromtimestampInstant` for a
float (a bool is a Python int, so it is accepted too); a string makes
`fromtimestamp` raise `TypeError`, which the surrounding
`except (TypeError, KeyError)` turns into a rejected entry.
(`fromtimestamp` of an astronomically large number would raise an
uncaught `OverflowError`; the rational model has no such bound.) -/
def parseExpField : JValue → Option ExpArg
  | .jnull => some .noneArg
  | .jint n => some (.dtArg (n : ℚ))
  | .jfloat q => some (.dtArg (fromtimestampInstant q))
  | .jbool b => some (.dtArg (if b then 1 else 0))
  | .jstr _ => none

/-- `CacheObject.instantiate(content, persistent=True, verify=True)`:
extract the fields (wrong shapes rejected), reconstruct `datetime` /
`bytes` values from their string encodings (failures rejected), build a
`CacheObject`, and, when `verify`, compare its recomputed 6-hex checksum
with the stored one — a mismatch is treated as tampering and the entry
is dropped (`None`).  The class tag is used only to dispatch the value
reconstruction; the rebuilt object re-derives its own class name from
the value.  (`b64decode` of a non-string raises an uncaught `TypeError`
in Python; that shape is produced by no writer and modelled as a
rejection.)  The `now` argument passed to the constructor is irrelevant
because the reconstructed expires argument is never a bool or a
seconds offset. -/
def CacheObject.instantiate (content : WireEntry) (persistent : Bool := true)
    (verify : Bool := true) : Option CacheObject :=
  match parseExpField content.x, content.c, content.chk with
  | some expArg, .jstr class_name, .jstr sha1sum =>
    let value? : Option PyValue :=
      if class_name = "datetime" then
        match content.v with
        | .jstr s => (fromisoformat s).map PyValue.datetime
        | _ => none
      else if class_name = "bytes" then
        match content.v with
        | .jstr s => (b64decode s).map PyValue.bytes
        | _ => none
      else some (jToPy content.v)
    match value? with
    | none => none
    | some value =>
      let co : CacheObject := CacheObject.init 0 value expArg persistent
      if verify ∧ co.sha1six ≠ sha1sum then none else some co
  | _, _, _ => none

end PersistentStoreModel

namespace PersistentStoreModel

/-- An ASCII letter or digit (`[A-Za-z0-9]`). -/
def asciiAlnum (c : Char) : Bool :=
  (97 ≤ c.toNat ∧ c.toNat ≤ 122) ∨ (65 ≤ c.toNat ∧ c.toNat ≤ 90) ∨
  (48 ≤ c.toNat ∧ c.toNat ≤ 57)

/-- First-character class of the validation pattern
`re.compile(r'[a-z0-9][a-z0-9._=]*', re.I)` under CPython's Unicode
`IGNORECASE` semantics.  Matching lowercases the input character with
the simple Unicode mapping, so besides `a-z`, `A-Z` and `0-9` the class
also accepts U+0130 (LATIN CAPITAL LETTER I WITH DOT ABOVE, simple
lowercase `i`) and U+212A (KELVIN SIGN, simple lowercase `k`); and at
compile time `sre` adds the case-folding equivalents of the class
members, contributing U+0131 (LATIN SMALL LETTER DOTLESS I, paired with
`i`) and U+017F (LATIN SMALL LETTER LONG S, paired with `s`).  These
four are exactly the non-ASCII code points the compiled pattern
matches (verified by exhaustive enumeration over all of Unicode). -/
def tokenFirst (c : Char) : Bool :=
  asciiAlnum c || c.toNat = 304 || c.toNat = 305 || c.toNat = 383 || c.toNat = 8490

/-- Continuation-character class of the pattern: the same
case-insensitive letters and digits plus period, underscore, equals.
(Note: no dash, and no anchors.) -/
def tokenRest (c : Char) : Bool :=
  tokenFirst c || c == '.' || c == '_' || c == '='

/-- Whether a character list matches the FULL pattern
`[a-z0-9][a-z0-9._=]*` (case-insensitive). -/
def matchesTokenCore : List Char → Bool
  | [] => false
  | c :: cs => tokenFirst c && cs.all tokenRest

/-- `__valid_token.match(s)`: Python's `re.match` anchors only at the
START of the string — it succeeds iff SOME prefix of `s` matches the
pattern.  There is no `$` anchor in the source pattern, so characters
after a matching prefix are unconstrained. -/
def validTokenMatch (s : String) : Bool :=
  (List.range (s.data.length + 1)).any (fun n => matchesTokenCore (s.data.take n))

/-- The token grammar as the SPEC states it (section 6):
`^[A-Za-z0-9][A-Za-z0-9._=-]*$` — ASCII classes, anchored at both ends
and allowing `-` in continuation position.  This definition follows the
spec's words (not the source) and exists only to be compared with
`validTokenMatch`. -/
def specTokenGrammar (s : String) : Bool :=
  match s.data with
  | [] => false
  | c :: cs =>
    asciiAlnum c &&
    cs.all (fun x => asciiAlnum x || x == '.' || x == '_' || x == '=' || x == '-')

/-- `re.match` on this pattern succeeds exactly when the string starts
with a character of the first-character class (the one-character prefix
already matches, and every match needs such a first character). -/
theorem validTokenMatch_iff (s : String) :
    validTokenMatch s = true ↔ ∃ c cs, s.data = c :: cs ∧ tokenFirst c = true := by
  constructor
  · intro h
    rcases List.any_eq_true.mp h with ⟨n, _, hm⟩
    rcases hn : s.data with _ | ⟨c, cs⟩
    · rw [hn] at hm
      simp [List.take_nil] at hm
      cases n <;> simp [matchesTokenCore] at hm
    · refine ⟨c, cs, rfl, ?_⟩
      rw [hn] at hm
      cases n with
      | zero => simp [matchesTokenCore] at hm
      | succ m =>
        simp only [List.take_succ_cons, matchesTokenCore, Bool.and_eq_true] at hm
        exact hm.1
  · rintro ⟨c, cs, hdata, hc⟩
    apply List.any_eq_true.mpr
    refine ⟨1, ?_, ?_⟩
    · simp [List.mem_range, hdata]
    · simp [hdata, List.take_succ_cons, matchesTokenCore, hc]

/-- What a file on disk can hold, as far as the load path can tell:
a valid gzip stream wrapping a valid JSON object of serialized entries;
a valid gzip stream whose payload fails UTF-8/JSON decoding; or bytes
that are not a gzip stream at all (such as the single byte `{`, whose
read raises `gzip.BadGzipFile`, an `OSError` subclass, on current
CPython). -/
inductive FileData where
  | gzjson (entries : List (String × WireEntry))
  | gzcorrupt
  | notgzip
deriving DecidableEq, Repr

/-- The abstract state of the namespace directory that the flush and
load paths manipulate: the content (if any) at the cache-file name
(`_cache.dat`), the backup name (`_cache.bak`), and the unique temporary
file of the flush in progress under `.tmp/`. -/
structure FS where
  cacheFile : Option FileData
  backupFile : Option FileData
  tempFile : Option FileData
deriving DecidableEq, Repr

/-- Injectable environment failures for the individual filesystem steps
of `flush` (each models the corresponding `os` call raising `OSError`
when the operation had something to do; `unlink`/`rename` of an absent
file raise `FileNotFoundError`, which the code handles separately). -/
structure FailPlan where
  mkBaseDir : Bool
  mkTempDir : Bool
  tmpCreate : Bool
  unlinkBackup : Bool
  renameCacheToBackup : Bool
  renameTempToCache : Bool
  restoreBackup : Bool
  unlinkTemp : Bool
deriving DecidableEq, Repr

/-- The plan under which every environment operation succeeds. -/
def noFail : FailPlan :=
  { mkBaseDir := false, mkTempDir := false, tmpCreate := false,
    unlinkBackup := false, renameCacheToBackup := false,
    renameTempToCache := false, restoreBackup := false, unlinkTemp := false }

/-- The in-memory state of a `PersistentStore`: its mode, the lazily
loaded table (`None` until the first access), the dirty flag, and the
abstract namespace directory.  The table is an association list in
insertion order (Python dict semantics).  The lazily cached size /
file-listing fields are not represented: no claim concerns them. -/
structure PersistentStore where
  mode : Mode
  cache : Option (List (String × CacheObject))
  dirty : Bool
  fs : FS
deriving DecidableEq, Repr

/-- Python dict lookup on the association-list table. -/
def dictGet (tbl : List (String × CacheObject)) (k : String) : Option CacheObject :=
  (tbl.find? (fun kv => kv.1 == k)).map (fun kv => kv.2)

/-- Python dict assignment: replace in place (keeping insertion order),
or append a new binding. -/
def dictSet (tbl : List (String × CacheObject)) (k : String) (v : CacheObject) :
    List (String × CacheObject) :=
  if tbl.any (fun kv => kv.1 == k) then
    tbl.map (fun kv => if kv.1 == k then (k, v) else kv)
  else tbl ++ [(k, v)]

/-- Python dict deletion. -/
def dictDel (tbl : List (String × CacheObject)) (k : String) :
    List (String × CacheObject) :=
  tbl.filter (fun kv => kv.1 != k)

end PersistentStoreModel

namespace PersistentStoreModel

/-- `PersistentStore.__load_cache()`.  Returns
`(result, warned, new state)`:
* the dirty flag is reset first;
* `MEMORY` mode or an absent cache file yield an empty table, success;
* a readable gzip+JSON file yields the entries that pass
  `CacheObject.instantiate` (with default `persistent`/`verify`), and the
  store is marked dirty iff at least one entry was dropped;
* a gzip file whose payload fails UTF-8/JSON decoding yields an empty
  table, a warning, and SUCCESS (`UnicodeDecodeError`/`JSONDecodeError`
  branch);
* a non-gzip file makes the read raise `gzip.BadGzipFile`, an `OSError`:
  the  `except OSError` branch warns and returns FAILURE — but
  `self._cache = {}` had already run inside the `with` block, so the
  table is left empty and usable.
A lower-level failure of the `open` itself (permissions) would return
failure with the table still unset; no claim exercises it and it is not
modelled. -/
def PersistentStore.loadCache (ps : PersistentStore) :
    Bool × Bool × PersistentStore :=
  let ps0 := { ps with dirty := false }
  if ps0.mode = Mode.memory then (true, false, { ps0 with cache := some [] })
  else
    match ps0.fs.cacheFile with
    | none => (true, false, { ps0 with cache := some [] })
    | some (.gzjson entries) =>
      let tbl := entries.filterMap
        (fun kv => (CacheObject.instantiate kv.2 true true).map (fun co => (kv.1, co)))
      let dropped := entries.any (fun kv => CacheObject.instantiate kv.2 true true = none)
      (true, false, { ps0 with cache := some tbl, dirty := dropped })
    | some .gzcorrupt => (true, true, { ps0 with cache := some [] })
    | some .notgzip => (false, true, { ps0 with cache := some [] })

/-- Steps 3-6 of the flush sequence on the directory alone: write the
serialized payload to a fresh temp file, remove the old backup
(`FileNotFoundError` ignored, other `OSError` aborts after best-effort
removal of the temp file), rename the cache file to the backup name
(same handling), and rename the temp file over the cache file — on
failure of that final rename, roll the backup back over the cache name
(best effort) and remove the orphaned temp file (best effort). -/
def PersistentStore.flushWrite (fs : FS) (inj : FailPlan) (payload : FileData) :
    Bool × FS :=
  let fs0 := { fs with tempFile := some payload }
  if inj.unlinkBackup && fs0.backupFile.isSome then
    (false, if inj.unlinkTemp then fs0 else { fs0 with tempFile := none })
  else
    let fs1 := { fs0 with backupFile := none }
    if inj.renameCacheToBackup && fs1.cacheFile.isSome then
      (false, if inj.unlinkTemp then fs1 else { fs1 with tempFile := none })
    else
      let fs2 :=
        if fs1.cacheFile.isNone then fs1
        else { fs1 with backupFile := fs1.cacheFile, cacheFile := none }
      if inj.renameTempToCache then
        let fs3 :=
          if inj.restoreBackup || fs2.backupFile.isNone then fs2
          else { fs2 with cacheFile := fs2.backupFile, backupFile := none }
        (false, if inj.unlinkTemp then fs3 else { fs3 with tempFile := none })
      else
        (true, { fs2 with cacheFile := fs2.tempFile, tempFile := none })

/-- `PersistentStore.flush(sync, force)` over the abstract directory,
with `now` the current time (liveness enters the serialization filter)
and `inj` the injected environment failures.  Faithful to the source's
step order: early exits (unloaded table / `MEMORY` mode / clean and not
forced), `makedirs` twice, the empty-table "delete only" path
(best-effort backup unlink and cache→backup rename, always success),
temp-file creation, then the write-and-rename sequence `flushWrite` on
the serialization of the live-and-persistent entries.  On success the
dirty flag is cleared.  (The lazily cached size/file-list fields the
source resets here are not represented; `os.sync` is a no-op in the
model.) -/
def PersistentStore.flush (ps : PersistentStore) (now : ℚ) (inj : FailPlan)
    (_sync : Bool := false) (force : Bool := false) : Bool × PersistentStore :=
  if ps.cache = none ∨ ps.mode = Mode.memory then (true, ps)
  else if ¬ force ∧ ps.dirty = false then (true, ps)
  else if inj.mkBaseDir then (false, ps)
  else if inj.mkTempDir then (false, ps)
  else
    match ps.cache with
    | none => (true, ps)
    | some tbl =>
      if tbl.isEmpty then
        let fs1 := if inj.unlinkBackup then ps.fs else { ps.fs with backupFile := none }
        let fs2 :=
          if inj.renameCacheToBackup || fs1.cacheFile.isNone then fs1
          else { fs1 with backupFile := fs1.cacheFile, cacheFile := none }
        (true, { ps with fs := fs2 })
      else if inj.tmpCreate then (false, ps)
      else
        let r := PersistentStore.flushWrite ps.fs inj
          (FileData.gzjson
            ((tbl.filter (fun kv => kv.2.isLive now && kv.2.persistent)).map
              (fun kv => (kv.1, kv.2.jsonWire))))
        if r.1 then (true, { ps with fs := r.2, dirty := false })
        else (false, { ps with fs := r.2 })

/-- The body of `PersistentStore.set` once the table is loaded: build the
new `CacheObject`; under `lazy`, an existing entry equal to it (Python
`==`, which compares the `str()` renderings) makes the call a no-op
success; otherwise store a freshly built identical entry, OVERWRITE the
dirty flag with the new entry's `persistent` flag, and in `FLUSH` mode
with the store now dirty, flush synchronously and return its result. -/
def PersistentStore.setAfterLoad (ps : PersistentStore) (now : ℚ) (key : String)
    (value : PyValue) (expires : ExpArg) (persistent : Bool) (lazy : Bool)
    (inj : FailPlan) : Bool × PersistentStore :=
  match ps.cache with
  | none => (false, ps)
  | some tbl =>
    let cache := CacheObject.init now value expires persistent
    let elided : Bool := lazy &&
      (match dictGet tbl key with
       | some old => cache.strRender == old.strRender
       | none => false)
    if elided then (true, ps)
    else
      let ps2 := { ps with
        cache := some (dictSet tbl key (CacheObject.init now value expires persistent))
        dirty := persistent }
      if persistent ∧ ps2.mode = Mode.flush then ps2.flush now inj true false
      else (true, ps2)

/-- `PersistentStore.set(key, value, expires=None, persistent=True,
lazy=True)`: lazy-load first (a failed load fails the call), then the
loaded body. -/
def PersistentStore.set (ps : PersistentStore) (now : ℚ) (key : String)
    (value : PyValue) (expires : ExpArg := .noneArg) (persistent : Bool := true)
    (lazy : Bool := true) (inj : FailPlan := noFail) : Bool × PersistentStore :=
  match ps.cache with
  | none =>
    match ps.loadCache with
    | (false, _, ps1) => (false, ps1)
    | (true, _, ps1) => ps1.setAfterLoad now key value expires persistent lazy inj
  | some _ => ps.setAfterLoad now key value expires persistent lazy inj

/-- `key in store` (`__contains__`): lazy-load (a failed load answers
"not contained"), then presence AND liveness of the entry. -/
def PersistentStore.contains (ps : PersistentStore) (now : ℚ) (key : String) :
    Bool × PersistentStore :=
  let memb := fun (ps1 : PersistentStore) =>
    match ps1.cache with
    | some tbl =>
      match dictGet tbl key with
      | some co => co.isLive now
      | none => false
    | none => false
  match ps.cache with
  | none =>
    match ps.loadCache with
    | (false, _, ps1) => (false, ps1)
    | (true, _, ps1) => (memb ps1, ps1)
  | some _ => (memb ps, ps)

/-- Result of `store[key] = value` (`__setitem__`): normal return,
the stray `return False` taken when the lazy load fails, or the
`OSError` raised when the key is absent and `set` fails. -/
inductive SetItemRes where
  | done
  | retFalse
  | raisesOS
deriving DecidableEq, Repr

/-- The body of `__setitem__` once the table is loaded.  For an absent
key, delegate to `set(key, value)` (raising `OSError` on failure); in
every non-raising case the `else` branch then runs: the (possibly just
inserted) entry is updated IN PLACE via `CacheObject.set(value)` —
which preserves its expiry and persistence — and the dirty flag is set
(not overwritten) iff that entry is persistent.  Finally, `FLUSH` mode
with a dirty store flushes synchronously (result discarded). -/
def PersistentStore.setItemAfterLoad (ps : PersistentStore) (now : ℚ) (key : String)
    (value : PyValue) (inj : FailPlan) : SetItemRes × PersistentStore :=
  match ps.cache with
  | none => (.retFalse, ps)
  | some tbl =>
    let afterIns : Bool × PersistentStore :=
      match dictGet tbl key with
      | none => ps.set now key value .noneArg true true inj
      | some _ => (true, ps)
    match afterIns with
    | (false, ps2) => (.raisesOS, ps2)
    | (true, ps2) =>
      match ps2.cache with
      | none => (.retFalse, ps2)
      | some tbl2 =>
        match dictGet tbl2 key with
        | none => (.done, ps2)
        | some co =>
          let co2 := co.setValue now value none none
          let ps3 := { ps2 with
            cache := some (dictSet tbl2 key co2)
            dirty := if co2.persistent then true else ps2.dirty }
          if ps3.dirty ∧ ps3.mode = Mode.flush then
            (.done, (ps3.flush now inj true false).2)
          else (.done, ps3)

/-- `store[key] = value` (`__setitem__`): lazy-load first (a failed load
returns `False` out of the dunder), then the loaded body. -/
def PersistentStore.setItem (ps : PersistentStore) (now : ℚ) (key : String)
    (value : PyValue) (inj : FailPlan := noFail) : SetItemRes × PersistentStore :=
  match ps.cache with
  | none =>
    match ps.loadCache with
    | (false, _, ps1) => (.retFalse, ps1)
    | (true, _, ps1) => ps1.setItemAfterLoad now key value inj
  | some _ => ps.setItemAfterLoad now key value inj

/-- The loop of `prune()`, exactly as written: for each key of the
initial table, the body runs only under `if not self._cache:` — i.e.
only when the WHOLE dict is empty (the source tests the dict, not the
entry `self._cache[key]`).  Since the dict is nonempty whenever there
are keys to iterate and the body is the only place a key is deleted,
the guard is never true and the loop never removes anything.  (Were the
body ever reached with an empty dict, the `self._cache[key]` lookup
would raise `KeyError`; the lookup is modelled with a default that is
never used.) -/
def pruneLoop : List String → List (String × CacheObject) → Bool → Bool →
    List (String × CacheObject) × Bool × Bool
  | [], tbl, change, dirty => (tbl, change, dirty)
  | k :: rest, tbl, change, dirty =>
    if tbl.isEmpty then
      let isPers := ((dictGet tbl k).map (fun co => co.persistent)).getD false
      let s2 := if ¬ change ∧ isPers then (true, true) else (change, dirty)
      pruneLoop rest (dictDel tbl k) s2.1 s2.2
    else pruneLoop rest tbl change dirty

/-- `PersistentStore.prune()`: lazy-load (failure fails the call), run
the loop above over a snapshot of the keys, then — with the dirty flag
possibly still set from earlier mutations — flush in `FLUSH` mode
(returning the flush result), else return whether anything changed. -/
def PersistentStore.prune (ps : PersistentStore) (now : ℚ)
    (inj : FailPlan := noFail) : Bool × PersistentStore :=
  let core := fun (ps1 : PersistentStore) =>
    match ps1.cache with
    | none => (false, ps1)
    | some tbl =>
      let r := pruneLoop (tbl.map (fun kv => kv.1)) tbl false ps1.dirty
      let ps2 := { ps1 with cache := some r.1, dirty := r.2.2 }
      if ps2.dirty ∧ ps2.mode = Mode.flush then ps2.flush now inj true false
      else (r.2.1, ps2)
  match ps.cache with
  | none =>
    match ps.loadCache with
    | (false, _, ps1) => (false, ps1)
    | (true, _, ps1) => core ps1
  | some _ => core ps

/-- Outcome of the raw-blob `read`/`write` calls. -/
inductive PyRet where
  | pyNone
  | raisesAttr
  | raisesType
  | memoryBranch
deriving DecidableEq, Repr

/-- `PersistentStore.write(data, key=None)` (raw blob storage).  The
source's first statement is `if not self.__mode ==
PersistentStoreMode.MEMORY: return None` — an INVERTED guard, so in the
disk-backed modes (`AUTO`/`FLUSH`) the call returns `None` immediately
without validating the key, measuring sizes, or touching any file.
Only in `MEMORY` mode does the body proceed: the key is validated
(`AttributeError` on a bad token), after which `self.size(exclude=key)`
raises `TypeError` — `size()` accepts no `exclude` keyword — so no
write can ever complete in any mode.  `dataLen` (the only property of
`data` the reachable code would use) is carried for fidelity of the
signature. -/
def PersistentStore.write (ps : PersistentStore) (_dataLen : Nat)
    (key : Option String) : PyRet × PersistentStore :=
  if ps.mode ≠ Mode.memory then (.pyNone, ps)
  else
    match key with
    | none => (.raisesType, ps)
    | some k =>
      if ¬ validTokenMatch k then (.raisesAttr, ps)
      else (.raisesType, ps)

/-- `PersistentStore.read(key=None)` (raw blob storage): the key is
validated first, then the same inverted guard returns `None` in the
disk-backed modes without opening anything.  The `MEMORY`-mode
continuation (an actual file open against the namespace directory, or a
`TypeError` when no base path exists) is summarized by a marker: the
claims concern only the disk-backed modes, which exit at the guard. -/
def PersistentStore.read (ps : PersistentStore) (key : Option String) : PyRet :=
  match key with
  | some k =>
    if ¬ validTokenMatch k then .raisesAttr
    else if ps.mode ≠ Mode.memory then .pyNone
    else .memoryBranch
  | none => if ps.mode ≠ Mode.memory then .pyNone else .memoryBranch

end PersistentStoreModel

namespace PersistentStoreModel

/-- Validity of a value as Python holds it: byte values are bytes,
datetimes are in `datetime`'s ranges.  (Python's types guarantee this
for every value the source can store.) -/
def valueValid : PyValue → Prop
  | .bytes l => ∀ b ∈ l, b < 256
  | .datetime d => d.valid
  | _ => True

instance (v : PyValue) : Decidable (valueValid v) := by
  unfold valueValid; cases v <;> infer_instance

/-- Well-formedness of a `CacheObject` as the source constructs them:
the recorded class name is the value's class name, and the value is a
real Python value. -/
def CacheObject.wf (co : CacheObject) : Prop :=
  co.className = pyClassName co.value ∧ valueValid co.value

instance (co : CacheObject) : Decidable co.wf := by
  unfold CacheObject.wf; infer_instance

/-- Codec round trip: decoding the serialized map of a well-formed entry
whose expiry (if any) survives the float trip through the wire — i.e.
`fromtimestamp` of its `total_seconds()` reproduces the instant —
with the matching `persistent` argument and an intact checksum yields
the entry back. -/
theorem instantiate_jsonWire (co : CacheObject) (h : co.wf)
    (hexp : ∀ t ∈ co.expires, fromtimestampInstant (totalSecondsFloat t) = t) :
    CacheObject.instantiate co.jsonWire co.persistent true = some co := by
  obtain ⟨v, cn, e, p⟩ := co
  obtain ⟨hclass, hval⟩ := h
  simp only at hclass hval
  subst hclass
  rcases e with _ | t
  · simp only [CacheObject.jsonWire, CacheObject.instantiate, parseExpField]
    cases v <;>
      simp_all [encodeValue, jToPy, pyClassName, valueValid, CacheObject.init,
        ExpArg.truthy, setExpiry, b64decode_b64encode, fromisoformat,
        fromisoformatAux_isoformatSep, PyDatetime.isoformat]
  · have ht : fromtimestampInstant (totalSecondsFloat t) = t := hexp t rfl
    simp only [CacheObject.jsonWire, CacheObject.instantiate, parseExpField, ht]
    cases v <;>
      simp_all [encodeValue, jToPy, pyClassName, valueValid, CacheObject.init,
        ExpArg.truthy, setExpiry, b64decode_b64encode, fromisoformat,
        fromisoformatAux_isoformatSep, PyDatetime.isoformat]

/-- The last character of an appended list is that of the (nonempty)
right part. -/
theorem getLast?_chain {α : Type} {l2 : List α} {c : α} (l1 : List α)
    (h : l2.getLast? = some c) : (l1 ++ l2).getLast? = some c := by
  rw [List.getLast?_append, h]
  rfl

/-- The expiry rendering always ends in the `0` of the `+00:00` offset. -/
theorem utcIso_getLast (q : ℚ) : (utcIso q).data.getLast? = some '0' := by
  unfold utcIso
  simp only [data_append]
  repeat apply getLast?_chain
  rfl

/-- A never-expiring entry's canonical rendering ends in the `r` of
`never`. -/
theorem strRender_getLast_none (co : CacheObject) (h : co.expires = none) :
    co.strRender.data.getLast? = some 'r' := by
  unfold CacheObject.strRender
  rw [h]
  simp only [data_append]
  repeat apply getLast?_chain
  rfl

/-- An expiring entry's canonical rendering ends in a digit. -/
theorem strRender_getLast_some (co : CacheObject) (t : ℚ) (h : co.expires = some t) :
    co.strRender.data.getLast? = some '0' := by
  unfold CacheObject.strRender
  rw [h]
  simp only [data_append]
  repeat apply getLast?_chain
  rfl

/-- Entries with and without an expiry never render equally (the
`CacheObject.__eq__` comparison used by `set`'s lazy elision therefore
never elides a write that clears an expiry). -/
theorem strRender_ne_of_expiry (co1 co2 : CacheObject) (t : ℚ)
    (h1 : co1.expires = none) (h2 : co2.expires = some t) :
    co1.strRender ≠ co2.strRender := by
  intro heq
  have e1 := strRender_getLast_none co1 h1
  have e2 := strRender_getLast_some co2 t h2
  rw [heq, e2] at e1
  simp at e1

unseal Rat.mul Rat.add Rat.sub Rat.inv in
/-- C8 counterexample: the integer entry `7` expiring at
`datetime(5000, 1, 1, 0, 0, 0, 1, tzinfo=timezone.utc)` — the instant
`95617584000 + 1/1000000` — is well formed, but `total_seconds()`
rounds its expiry to the binary64 `95617584000.0` (the microsecond does
not fit in 53 bits at that magnitude), so the decoder rebuilds the
entry with a different expiry, the recomputed 6-hex checksum differs
from the stored one, and `instantiate` drops the entry: decoding the
serialized map yields `none`, not an entry equal to the original.  This
refutes the claim's universal round trip. -/
theorem c8_counterexample :
    (CacheObject.init 0 (.int 7) (.dtArg (95617584000 + 1/1000000)) true).wf ∧
    (CacheObject.init 0 (.int 7)
        (.dtArg (95617584000 + 1/1000000)) true).jsonWire.x =
      .jfloat 95617584000 ∧
    CacheObject.instantiate
      (CacheObject.init 0 (.int 7)
        (.dtArg (95617584000 + 1/1000000)) true).jsonWire true true = none := by
  refine ⟨by decide, ?_, ?_⟩
  · set_option maxRecDepth 100000 in decide
  · set_option maxRecDepth 100000 in decide

/-- C8 amended: for every cache entry holding a supported value kind
(string, integer, float, boolean, null, byte-sequence, absolute
timestamp) whose expiry, if present, survives the float trip through
the wire (`fromtimestamp` of `total_seconds()` reproduces the instant —
true of every expiry a real deployment produces, and false only for
instants whose microseconds exceed binary64 precision), decoding the
entry's serialized map — `CacheObject.instantiate` applied to the wire
form of `CacheObject.json()` with the matching `persistent` argument —
with an intact checksum yields an entry equal to the original in value,
expiry and type tag. -/
theorem c8_codec_roundtrip (co : CacheObject) (h : co.wf)
    (hexp : ∀ t ∈ co.expires, fromtimestampInstant (totalSecondsFloat t) = t) :
    CacheObject.instantiate co.jsonWire co.persistent true = some co :=
  instantiate_jsonWire co h hexp

unseal Rat.mul Rat.add Rat.sub Rat.inv in
/-- Witness for `c8_codec_roundtrip` at a concrete timestamp-valued,
expiring entry. -/
theorem c8_codec_roundtrip_witness :
    (CacheObject.init 0 (.datetime ⟨2024, 6, 8, 1, 50, 1, 587267, some 0⟩)
      (.dtArg 100) true).wf ∧
    fromtimestampInstant (totalSecondsFloat 100) = 100 ∧
    CacheObject.instantiate
      (CacheObject.init 0 (.datetime ⟨2024, 6, 8, 1, 50, 1, 587267, some 0⟩)
        (.dtArg 100) true).jsonWire true true =
      some (CacheObject.init 0 (.datetime ⟨2024, 6, 8, 1, 50, 1, 587267, some 0⟩)
        (.dtArg 100) true) :=
  ⟨by decide, by decide,
   c8_codec_roundtrip _ (by decide)
     (by
       intro t ht
       simp [CacheObject.init, setExpiry, ExpArg.truthy] at ht
       subst ht
       decide)⟩

/-- C2 counterexample: with the cache file truncated to the single byte
`{` (not a gzip stream), the load DOES report failure to the caller —
`__load_cache` returns `False`, and a first `set()` on the store
therefore returns `False` — refuting the claim's "does not report
failure to the caller" (the decode/decompress recovery that returns
success is taken only for gzip-wrapped JSON/UTF-8 failures). -/
theorem c2_counterexample :
    ((⟨Mode.flush, none, false, ⟨some .notgzip, none, none⟩⟩ :
        PersistentStore).loadCache).1 = false ∧
    ((⟨Mode.flush, none, false, ⟨some .notgzip, none, none⟩⟩ :
        PersistentStore).set 0 "mykey" (.int 42)).1 = false := by
  constructor
  · rfl
  · rfl

/-- C2 amended: a cache file whose gzip-wrapped payload fails JSON/UTF-8
decoding loads as an empty usable table with a warning, not dirty, and
reports SUCCESS; a file that fails gzip decompression itself (e.g.
truncated to `{`) also leaves an empty usable table, a warning and a
clean dirty flag — but the load reports FAILURE.  In both cases
membership then reports keys absent, and a subsequent `set` of a key
followed by the mode-driven flush produces a valid, re-loadable cache
file containing that key. -/
theorem c2_amended :
    (∀ ps : PersistentStore, ps.mode ≠ Mode.memory →
      ps.fs.cacheFile = some .gzcorrupt →
      ps.loadCache = (true, true, { ps with dirty := false, cache := some [] })) ∧
    (∀ ps : PersistentStore, ps.mode = Mode.flush →
      ps.fs.cacheFile = some .notgzip → ps.cache = none →
      ∀ (now : ℚ) (v : PyValue), valueValid v →
      ps.loadCache = (false, true, { ps with dirty := false, cache := some [] }) ∧
      (ps.contains now "mykey").1 = false ∧
      ((ps.contains now "mykey").2.set now "mykey" v).1 = true ∧
      ((ps.contains now "mykey").2.set now "mykey" v).2.fs.cacheFile =
        some (.gzjson [("mykey", (CacheObject.init now v .noneArg true).jsonWire)]) ∧
      ((⟨Mode.auto, none, false,
          ((ps.contains now "mykey").2.set now "mykey" v).2.fs⟩ :
        PersistentStore).contains now "mykey").1 = true) := by
  constructor
  · rintro ⟨mode, cache, dirty, fs⟩ hmode hfile
    obtain ⟨cf, bf, tf⟩ := fs
    simp only at hfile
    subst hfile
    unfold PersistentStore.loadCache
    simp [hmode]
  · rintro ⟨mode, cache, dirty, fs⟩ hmode hfile hcache
    obtain ⟨cf, bf, tf⟩ := fs
    simp only at hfile hmode hcache
    subst hfile hmode hcache
    intro now v hv
    have hload : (⟨Mode.flush, none, dirty, ⟨some .notgzip, bf, tf⟩⟩ :
        PersistentStore).loadCache =
        (false, true, ⟨Mode.flush, some [], false, ⟨some .notgzip, bf, tf⟩⟩) := rfl
    refine ⟨hload, ?_, ?_, ?_, ?_⟩
    · simp [PersistentStore.contains, hload]
    · simp [PersistentStore.contains, hload, PersistentStore.set,
        PersistentStore.setAfterLoad, dictGet, dictSet, PersistentStore.flush,
        PersistentStore.flushWrite, CacheObject.isLive, CacheObject.init,
        ExpArg.truthy, noFail]
    · simp [PersistentStore.contains, hload, PersistentStore.set,
        PersistentStore.setAfterLoad, dictGet, dictSet, PersistentStore.flush,
        PersistentStore.flushWrite, CacheObject.isLive, CacheObject.init,
        ExpArg.truthy, noFail]
    · have hrt : CacheObject.instantiate
          ({ value := v, className := pyClassName v, expires := none,
             persistent := true } : CacheObject).jsonWire true true =
          some { value := v, className := pyClassName v, expires := none,
                 persistent := true } :=
        instantiate_jsonWire _ ⟨rfl, hv⟩ (by simp)
      simp [PersistentStore.contains, hload, PersistentStore.set,
        PersistentStore.setAfterLoad, dictGet, dictSet, PersistentStore.flush,
        PersistentStore.flushWrite, CacheObject.isLive, CacheObject.init,
        ExpArg.truthy, noFail, PersistentStore.loadCache, hrt]

/-- Witness for `c2_amended` at concrete corrupt stores. -/
theorem c2_amended_witness :
    ((⟨Mode.auto, none, false, ⟨some FileData.gzcorrupt, none, none⟩⟩ :
        PersistentStore).loadCache =
      (true, true,
        ⟨Mode.auto, some [], false, ⟨some FileData.gzcorrupt, none, none⟩⟩)) ∧
    ((⟨Mode.flush, none, false, ⟨some FileData.notgzip, none, none⟩⟩ :
        PersistentStore).contains 0 "mykey").1 = false :=
  ⟨c2_amended.1 _ (by decide) rfl,
   ((c2_amended.2 _ rfl rfl rfl 0 (.int 42) (by trivial)).2).1⟩

/-- `PersistentStore.__init__(namespace, path, mode)`: a namespace that
the validation pattern does not match raises `AttributeError` before any
filesystem path is formed; with a path, a missing mode defaults to
`PERSISTENT_STORE_MODES[0]` (`AUTO`); without a path the mode is forced
to `MEMORY`.  The store starts with an unloaded table and a clean dirty
flag against the given directory state. -/
def PersistentStore.create (ns : String) (hasPath : Bool) (mode : Option Mode)
    (fs : FS) : Option PersistentStore :=
  if ¬ validTokenMatch ns then none
  else some ⟨(if hasPath then mode.getD Mode.auto else Mode.memory), none, false, fs⟩

/-- C4 counterexample: `"a/b"` does not match the spec's token grammar
(`/` is a disallowed character after a valid leading character), yet the
unanchored `re.match` of the source accepts it, and the constructor
builds a store for it instead of failing. -/
theorem c4_counterexample :
    specTokenGrammar "a/b" = false ∧
    validTokenMatch "a/b" = true ∧
    (PersistentStore.create "a/b" true none ⟨none, none, none⟩).isSome = true := by
  decide

/-- C4 amended: the constructor (and the key validation used by the
raw-I/O operations) rejects exactly the strings that do not START with
a character matched by the case-insensitive class `[a-z0-9]` — the
ASCII letters and digits together with the Unicode case-folding
equivalents U+0130, U+0131, U+017F and U+212A — because the pattern has
no end anchor and `re.match` only requires a matching prefix.  Every
string matching the spec grammar (including ones containing `-`) is
therefore accepted, and so are strings with disallowed characters after
a valid first character, and strings led by those non-ASCII
equivalents. -/
theorem c4_amended :
    ∀ (s : String) (fs : FS) (m : Option Mode),
    ((PersistentStore.create s true m fs).isSome = true ↔
      ∃ c cs, s.data = c :: cs ∧ tokenFirst c = true) ∧
    (specTokenGrammar s = true → (PersistentStore.create s true m fs).isSome = true) ∧
    (validTokenMatch s = false →
      ∀ ps : PersistentStore, ps.read (some s) = PyRet.raisesAttr) := by
  intro s fs m
  have hiff : (PersistentStore.create s true m fs).isSome = true ↔
      validTokenMatch s = true := by
    unfold PersistentStore.create
    by_cases h : validTokenMatch s = true <;> simp [h]
  refine ⟨hiff.trans (validTokenMatch_iff s), ?_, ?_⟩
  · intro hg
    apply hiff.mpr
    apply (validTokenMatch_iff s).mpr
    unfold specTokenGrammar at hg
    rcases hd : s.data with _ | ⟨c, cs⟩
    · rw [hd] at hg; simp at hg
    · rw [hd] at hg
      simp only [Bool.and_eq_true] at hg
      exact ⟨c, cs, rfl, by simp [tokenFirst, hg.1]⟩
  · intro hv ps
    unfold PersistentStore.read
    simp [hv]

/-- Witness for `c4_amended`: the dash-containing token `"a-b"` (legal
per the spec grammar) is accepted by the constructor, and so is a
namespace led by U+212A (KELVIN SIGN), which only the Unicode
case-folding behaviour admits. -/
theorem c4_amended_witness :
    specTokenGrammar "a-b" = true ∧
    (PersistentStore.create "a-b" true none ⟨none, none, none⟩).isSome = true ∧
    (PersistentStore.create "K" true none ⟨none, none, none⟩).isSome = true :=
  ⟨by decide, (c4_amended "a-b" ⟨none, none, none⟩ none).2.1 (by decide),
   (c4_amended "K" ⟨none, none, none⟩ none).1.mpr
     ⟨'K', [], rfl, by decide⟩⟩

/-- C5: evaluating `prune()` at a table holding a single expired,
persistent entry: the entry is not live, yet `prune` removes nothing,
returns `False`, and leaves the store (table, dirty flag, files)
unchanged — the loop's guard tests `if not self._cache:` (emptiness of
the whole dict) instead of the entry's liveness, so its body never
runs.  The claim (and the method's own docstring, "Eliminates expired
cache entries") requires the entry to be removed and `True` returned. -/
theorem c5_prune_noop :
    (CacheObject.init 0 (.int 7) (.dtArg 5) true).isLive 10 = false ∧
    (CacheObject.init 0 (.int 7) (.dtArg 5) true).persistent = true ∧
    ((⟨Mode.auto, some [("k", CacheObject.init 0 (.int 7) (.dtArg 5) true)],
        false, ⟨none, none, none⟩⟩ : PersistentStore).prune 10 noFail).1 = false ∧
    ((⟨Mode.auto, some [("k", CacheObject.init 0 (.int 7) (.dtArg 5) true)],
        false, ⟨none, none, none⟩⟩ : PersistentStore).prune 10 noFail).2 =
      ⟨Mode.auto, some [("k", CacheObject.init 0 (.int 7) (.dtArg 5) true)],
        false, ⟨none, none, none⟩⟩ := by
  decide

/-- C7: in the disk-backed modes (`AUTO` and `FLUSH`) the raw-blob
`write` returns `None` immediately — its first statement is the
inverted guard `if not self.__mode == PersistentStoreMode.MEMORY:
return None` — performing no size check and writing nothing, and `read`
of any grammar-valid key likewise returns `None` without opening a
file.  (The tests require `write` to return `True` and `read` to return
the data in `FLUSH` mode.) -/
theorem c7_write_inert :
    ∀ (ps : PersistentStore) (dataLen : Nat) (key : Option String),
    ps.mode ≠ Mode.memory →
    ps.write dataLen key = (PyRet.pyNone, ps) ∧
    (∀ k, validTokenMatch k = true → ps.read (some k) = PyRet.pyNone) := by
  intro ps dataLen key hmode
  constructor
  · unfold PersistentStore.write
    simp [hmode]
  · intro k hk
    unfold PersistentStore.read
    simp [hk, hmode]

/-- Witness for `c7_write_inert`: a `FLUSH`-mode store ignores a write
of a small payload under the valid key `"mykey"`. -/
theorem c7_write_inert_witness :
    ((⟨Mode.flush, none, false, ⟨none, none, none⟩⟩ : PersistentStore).write 4
      (some "mykey") =
      (PyRet.pyNone, ⟨Mode.flush, none, false, ⟨none, none, none⟩⟩)) ∧
    (⟨Mode.flush, none, false, ⟨none, none, none⟩⟩ :
      PersistentStore).read (some "mykey") = PyRet.pyNone :=
  ⟨(c7_write_inert _ 4 (some "mykey") (by decide)).1,
   (c7_write_inert _ 4 (some "mykey") (by decide)).2 "mykey" (by decide)⟩

/-- C6 counterexample: in an `AUTO`-mode store, a persistent `set`
leaves the store dirty with nothing yet on disk; a subsequent
NON-persistent `set` of a different key succeeds but OVERWRITES the
dirty flag to `False` (`self.__dirty = persistent`), even though the
earlier persistent change is still unflushed (the cache file does not
exist and the persistent entry is still only in memory). -/
theorem c6_counterexample :
    (((⟨Mode.auto, some [], false, ⟨none, none, none⟩⟩ : PersistentStore).set 0
        "a" (.int 1)).2.dirty = true) ∧
    ((((⟨Mode.auto, some [], false, ⟨none, none, none⟩⟩ : PersistentStore).set 0
        "a" (.int 1)).2.set 0 "b" (.int 2) .noneArg false)).1 = true ∧
    ((((⟨Mode.auto, some [], false, ⟨none, none, none⟩⟩ : PersistentStore).set 0
        "a" (.int 1)).2.set 0 "b" (.int 2) .noneArg false)).2.dirty = false ∧
    ((((⟨Mode.auto, some [], false, ⟨none, none, none⟩⟩ : PersistentStore).set 0
        "a" (.int 1)).2.set 0 "b" (.int 2) .noneArg false)).2.fs.cacheFile = none ∧
    dictGet (((((⟨Mode.auto, some [], false, ⟨none, none, none⟩⟩ :
        PersistentStore).set 0 "a" (.int 1)).2.set 0 "b" (.int 2) .noneArg
        false)).2.cache.getD []) "a" =
      some (CacheObject.init 0 (.int 1) .noneArg true) := by
  decide

/-- The lazy-elision test of `set` (`cache == self._cache[key]`,
i.e. equality of the canonical renderings of the new entry and the
existing one; `False` for a fresh key or an unloaded table). -/
def PersistentStore.setElides (ps : PersistentStore) (now : ℚ) (key : String)
    (value : PyValue) (expires : ExpArg) (persistent : Bool) (lazy : Bool) : Bool :=
  match ps.cache with
  | none => false
  | some tbl =>
    lazy && (match dictGet tbl key with
      | some old => (CacheObject.init now value expires persistent).strRender == old.strRender
      | none => false)

/-- C6 amended: outside `FLUSH` mode, a `set` on a loaded table leaves
the dirty flag unchanged when the write is lazily elided, and otherwise
OVERWRITES it with the new entry's `persistent` flag — so a
non-persistent `set` never leaves the store dirty, and it CLEARS a
dirty flag set by an earlier persistent mutation. -/
theorem c6_amended :
    ∀ (ps : PersistentStore) (tbl : List (String × CacheObject)) (now : ℚ)
      (key : String) (value : PyValue) (expires : ExpArg) (persistent lazy : Bool)
      (inj : FailPlan),
    ps.cache = some tbl → ps.mode ≠ Mode.flush →
    (ps.set now key value expires persistent lazy inj).2.dirty =
      (if ps.setElides now key value expires persistent lazy then ps.dirty
       else persistent) := by
  intro ps tbl now key value expires persistent lazy inj hcache hmode
  unfold PersistentStore.set PersistentStore.setAfterLoad PersistentStore.setElides
  rw [hcache]
  simp only
  by_cases he : (lazy && (match dictGet tbl key with
      | some old => (CacheObject.init now value expires persistent).strRender == old.strRender
      | none => false)) = true
  · simp [he]
  · simp only [Bool.not_eq_true] at he
    simp [he, hmode]

/-- Witness for `c6_amended`: the non-persistent second `set` of the
counterexample scenario indeed resets the dirty flag to its
`persistent` argument, `false`. -/
theorem c6_amended_witness :
    (((⟨Mode.auto, some [("a", CacheObject.init 0 (.int 1) .noneArg true)], true,
        ⟨none, none, none⟩⟩ : PersistentStore).set 0 "b" (.int 2) .noneArg false
        true noFail).2.dirty) =
      (if (⟨Mode.auto, some [("a", CacheObject.init 0 (.int 1) .noneArg true)],
          true, ⟨none, none, none⟩⟩ : PersistentStore).setElides 0 "b" (.int 2)
          .noneArg false true then true else false) :=
  c6_amended _ _ 0 "b" (.int 2) .noneArg false true noFail rfl (by decide)

/-- C3 counterexample: flushing a nonempty table whose only entry is
persistent but EXPIRED writes an empty map — the serialization filter is
`if v and v.persistent`, so liveness, not persistence alone, gates
inclusion; the claim's "regardless of whether each entry is live or
expired" fails. -/
theorem c3_counterexample :
    (CacheObject.init 0 (.int 7) (.dtArg 5) true).persistent = true ∧
    (CacheObject.init 0 (.int 7) (.dtArg 5) true).isLive 10 = false ∧
    ((⟨Mode.auto, some [("k", CacheObject.init 0 (.int 7) (.dtArg 5) true)],
        true, ⟨none, none, none⟩⟩ : PersistentStore).flush 10 noFail).1 = true ∧
    ((⟨Mode.auto, some [("k", CacheObject.init 0 (.int 7) (.dtArg 5) true)],
        true, ⟨none, none, none⟩⟩ : PersistentStore).flush 10 noFail).2.fs.cacheFile =
      some (.gzjson []) := by
  decide

/-- C3 amended: a failure-free flush of a nonempty table serializes into
the new cache file exactly the entries that are BOTH live and
persistent, in table order. -/
theorem c3_amended :
    ∀ (ps : PersistentStore) (tbl : List (String × CacheObject)) (now : ℚ)
      (sync force : Bool),
    ps.cache = some tbl → tbl ≠ [] → ps.mode ≠ Mode.memory →
    (force = true ∨ ps.dirty = true) →
    (ps.flush now noFail sync force).1 = true ∧
    (ps.flush now noFail sync force).2.fs.cacheFile =
      some (.gzjson ((tbl.filter (fun kv => kv.2.isLive now && kv.2.persistent)).map
        (fun kv => (kv.1, kv.2.jsonWire)))) := by
  intro ps tbl now sync force hcache htbl hmode hdirty
  unfold PersistentStore.flush PersistentStore.flushWrite
  rw [hcache]
  have h3 : tbl.isEmpty = false := by
    rcases tbl with _ | ⟨a, l⟩ <;> simp_all [List.isEmpty]
  rcases hdirty with hf | hd <;>
    by_cases hcf : ps.fs.cacheFile = none <;>
      simp_all [noFail]

/-- Witness for `c3_amended` at a one-entry live persistent table. -/
theorem c3_amended_witness :
    ((⟨Mode.auto, some [("k", CacheObject.init 0 (.int 7) .noneArg true)], true,
        ⟨none, none, none⟩⟩ : PersistentStore).flush 10 noFail).1 = true ∧
    ((⟨Mode.auto, some [("k", CacheObject.init 0 (.int 7) .noneArg true)], true,
        ⟨none, none, none⟩⟩ : PersistentStore).flush 10 noFail).2.fs.cacheFile =
      some (.gzjson [("k", (CacheObject.init 0 (.int 7) .noneArg true).jsonWire)]) :=
  c3_amended _ [("k", CacheObject.init 0 (.int 7) .noneArg true)] 10 false false
    rfl (by decide) (by decide) (Or.inr rfl)

end PersistentStoreModel

namespace PersistentStoreModel

/-- Any failing write-and-rename sequence leaves the previous cache-file
content at the cache name or at the backup name. -/
theorem flushWrite_fail_preserves (fs : FS) (inj : FailPlan) (payload : FileData)
    (C : FileData) (hfile : fs.cacheFile = some C)
    (hres : (PersistentStore.flushWrite fs inj payload).1 = false) :
    (PersistentStore.flushWrite fs inj payload).2.cacheFile = some C ∨
    (PersistentStore.flushWrite fs inj payload).2.backupFile = some C := by
  obtain ⟨cf, bf, tf⟩ := fs
  simp only at hfile
  subst hfile
  obtain ⟨b1, b2, b3, b4, b5, b6, b7, b8⟩ := inj
  unfold PersistentStore.flushWrite at hres ⊢
  cases b4 <;> cases b5 <;> cases b6 <;> cases b7 <;> cases b8 <;>
    rcases bf with _ | bfv <;> simp_all

/-- With only the final rename failing, the write-and-rename sequence
reports failure, restores the old cache content under the cache name,
and leaves no backup and no temp file. -/
theorem flushWrite_finalRenameOnly (fs : FS) (payload : FileData) (C : FileData)
    (hfile : fs.cacheFile = some C) :
    PersistentStore.flushWrite fs { noFail with renameTempToCache := true } payload =
      (false, ⟨some C, none, none⟩) := by
  obtain ⟨cf, bf, tf⟩ := fs
  simp only at hfile
  subst hfile
  simp [PersistentStore.flushWrite, noFail]

/-- C1: (a) when only the final temp→cache rename fails on a flush of a
nonempty table, the flush restores the previous cache content back under
the cache-file name (via the backup), removes the orphaned temporary
file, and reports failure; (b) EVERY failing flush leaves the previous
cache-file content intact, at the cache-file name or at the backup name,
whatever combination of step failures caused the abort. -/
theorem c1_flush_rollback :
    (∀ (ps : PersistentStore) (tbl : List (String × CacheObject)) (now : ℚ)
       (sync force : Bool) (C : FileData),
      ps.cache = some tbl → tbl ≠ [] → ps.mode ≠ Mode.memory →
      (force = true ∨ ps.dirty = true) → ps.fs.cacheFile = some C →
      ps.flush now { noFail with renameTempToCache := true } sync force =
        (false, { ps with fs := ⟨some C, none, none⟩ })) ∧
    (∀ (ps : PersistentStore) (now : ℚ) (inj : FailPlan) (sync force : Bool)
       (C : FileData),
      ps.fs.cacheFile = some C →
      (ps.flush now inj sync force).1 = false →
      ((ps.flush now inj sync force).2.fs.cacheFile = some C ∨
       (ps.flush now inj sync force).2.fs.backupFile = some C)) := by
  constructor
  · intro ps tbl now sync force C hcache htbl hmode hdirty hfile
    have hw := flushWrite_finalRenameOnly ps.fs
      (FileData.gzjson
        ((tbl.filter (fun kv => kv.2.isLive now && kv.2.persistent)).map
          (fun kv => (kv.1, kv.2.jsonWire)))) C hfile
    unfold PersistentStore.flush
    rw [hcache]
    have h3 : tbl.isEmpty = false := by
      rcases tbl with _ | ⟨a, l⟩ <;> simp_all [List.isEmpty]
    rcases hdirty with hf | hd <;> simp_all [noFail]
  · intro ps now inj sync force C hfile hres
    generalize hg : ps.flush now inj sync force = r at hres ⊢
    obtain ⟨res, ps2⟩ := r
    simp only at hres
    subst hres
    unfold PersistentStore.flush at hg
    split at hg
    · simp at hg
    · split at hg
      · simp at hg
      · split at hg
        · simp only [Prod.mk.injEq] at hg
          rw [← hg.2]
          exact Or.inl hfile
        · split at hg
          · simp only [Prod.mk.injEq] at hg
            rw [← hg.2]
            exact Or.inl hfile
          · split at hg
            · simp at hg
            · rename_i tbl hsome
              split at hg
              · simp at hg
              · split at hg
                · simp only [Prod.mk.injEq] at hg
                  rw [← hg.2]
                  exact Or.inl hfile
                · dsimp only at hg
                  split at hg
                  · simp at hg
                  · rename_i hwfalse
                    simp only [Prod.mk.injEq] at hg
                    rw [← hg.2]
                    simp only
                    exact flushWrite_fail_preserves ps.fs inj _ C hfile
                      (by simp [hwfalse])

end PersistentStoreModel

namespace PersistentStoreModel

/-- Witness for `c1_flush_rollback` at a concrete store whose cache file
and backup both exist. -/
theorem c1_flush_rollback_witness :
    ((⟨Mode.auto, some [("k", CacheObject.init 0 (.int 7) .noneArg true)], true,
        ⟨some (.gzjson []), some .gzcorrupt, none⟩⟩ : PersistentStore).flush 10
        { noFail with renameTempToCache := true } false false =
      (false, ⟨Mode.auto, some [("k", CacheObject.init 0 (.int 7) .noneArg true)],
        true, ⟨some (.gzjson []), none, none⟩⟩)) ∧
    (((⟨Mode.auto, some [("k", CacheObject.init 0 (.int 7) .noneArg true)], true,
        ⟨some (.gzjson []), some .gzcorrupt, none⟩⟩ : PersistentStore).flush 10
        { noFail with mkBaseDir := true } false false).2.fs.cacheFile =
        some (.gzjson []) ∨
     ((⟨Mode.auto, some [("k", CacheObject.init 0 (.int 7) .noneArg true)], true,
        ⟨some (.gzjson []), some .gzcorrupt, none⟩⟩ : PersistentStore).flush 10
        { noFail with mkBaseDir := true } false false).2.fs.backupFile =
        some (.gzjson [])) :=
  ⟨c1_flush_rollback.1 _ [("k", CacheObject.init 0 (.int 7) .noneArg true)] 10
      false false (.gzjson []) rfl (by decide) (by decide) (Or.inr rfl) rfl,
   c1_flush_rollback.2 _ 10 { noFail with mkBaseDir := true } false false
      (.gzjson []) rfl (by decide)⟩

end PersistentStoreModel

namespace PersistentStoreModel

/-- C9 counterexample: the serialized bytes entry `b'A'` has encoded
value `"QQ=="` and intact checksum `65c649` (the SHA1 prefix of
`bytes:+:b'A' expires: never`).  Mutating the single byte at index 1 of
the encoded value (`'Q'` to `'R'`, every other byte unchanged) yields
`"QR=="`, which base64-decodes to the SAME bytes — Python's decoder
discards the unused low bits of the final symbol — so the recomputed
checksum still matches and decoding returns the entry instead of
absent. -/
theorem c9_counterexample :
    b64encode [65] = "QQ==" ∧
    "QQ==".data = ['Q', 'Q', '=', '='] ∧
    "QR==".data = ['Q', 'R', '=', '='] ∧
    (CacheObject.init 0 (.bytes [65]) .noneArg true).sha1six = "65c649" ∧
    CacheObject.instantiate ⟨.jstr "QQ==", .jnull, .jstr "bytes", .jstr "65c649"⟩
      true true = some (CacheObject.init 0 (.bytes [65]) .noneArg true) ∧
    CacheObject.instantiate ⟨.jstr "QR==", .jnull, .jstr "bytes", .jstr "65c649"⟩
      true true = some (CacheObject.init 0 (.bytes [65]) .noneArg true) := by
  set_option maxRecDepth 100000 in decide

/-- C9 amended: tamper rejection holds exactly up to the checksum: an
entry accepted by verifying decode always carries, in its `!` field, the
6-hex SHA1 prefix of the canonical rendering of the decoded entry — so
any mutation that changes the recomputed checksum (or breaks parsing) is
rejected; a mutation that leaves the decoded value unchanged, such as a
base64 padding-bit flip, is accepted. -/
theorem c9_amended :
    ∀ (content : WireEntry) (p : Bool) (co : CacheObject),
    CacheObject.instantiate content p true = some co →
    content.chk = .jstr co.sha1six := by
  intro content p co h
  obtain ⟨v, x, c, chk⟩ := content
  unfold CacheObject.instantiate at h
  simp only at h
  split at h
  · rename_i expArg class_name sha1sum hx hc hchk
    split at h
    · simp at h
    · rename_i value hval
      split at h
      · simp at h
      · rename_i hver
        simp only [Option.some.injEq] at h
        subst h
        simp only [true_and, ne_eq, not_not] at hver
        simp [hver]
  · simp at h

end PersistentStoreModel

namespace PersistentStoreModel

/-- Witness for `c9_amended` at the intact serialized bytes entry. -/
theorem c9_amended_witness :
    (⟨.jstr "QQ==", .jnull, .jstr "bytes", .jstr "65c649"⟩ : WireEntry).chk =
      .jstr (CacheObject.init 0 (.bytes [65]) .noneArg true).sha1six :=
  c9_amended _ true _ (by set_option maxRecDepth 100000 in decide)

/-- C10: in an `AUTO`-mode store, (a) `set(key, value)` with default
arguments on a key whose entry carries an expiry replaces it with a
fresh entry — never expiring and persistent — discarding the old
expiry (the lazy-elision equality can never hold, because the renderings
differ at the expiry part); (b) indexed assignment `store[key] = value`
on an existing key updates that entry in place, preserving its expiry
and persistence flag and changing its value (and the derived type tag),
marking the store dirty only when the entry is persistent. -/
theorem c10_set_vs_setitem :
    (∀ (ps : PersistentStore) (tbl : List (String × CacheObject)) (now t : ℚ)
       (key : String) (oldCo : CacheObject) (value : PyValue),
      ps.mode = Mode.auto → ps.cache = some tbl → dictGet tbl key = some oldCo →
      oldCo.expires = some t →
      ps.set now key value = (true,
        { ps with
          cache := some (dictSet tbl key (CacheObject.init now value .noneArg true))
          dirty := true }) ∧
      (CacheObject.init now value .noneArg true).expires = none ∧
      (CacheObject.init now value .noneArg true).persistent = true) ∧
    (∀ (ps : PersistentStore) (tbl : List (String × CacheObject)) (now : ℚ)
       (key : String) (oldCo : CacheObject) (value : PyValue) (inj : FailPlan),
      ps.mode = Mode.auto → ps.cache = some tbl → dictGet tbl key = some oldCo →
      ps.setItem now key value inj = (.done,
        { ps with
          cache := some (dictSet tbl key (oldCo.setValue now value none none))
          dirty := if oldCo.persistent then true else ps.dirty }) ∧
      (oldCo.setValue now value none none).expires = oldCo.expires ∧
      (oldCo.setValue now value none none).persistent = oldCo.persistent ∧
      (oldCo.setValue now value none none).value = value) := by
  constructor
  · intro ps tbl now t key oldCo value hmode hcache hget hexp
    have hne : (CacheObject.init now value .noneArg true).strRender ≠ oldCo.strRender :=
      strRender_ne_of_expiry _ _ t rfl hexp
    refine ⟨?_, rfl, rfl⟩
    unfold PersistentStore.set PersistentStore.setAfterLoad
    rw [hcache]
    simp only [hget, beq_eq_false_iff_ne.mpr hne, Bool.and_false, if_false,
      Bool.false_eq_true, hmode]
    simp [hmode]
  · intro ps tbl now key oldCo value inj hmode hcache hget
    refine ⟨?_, rfl, rfl, rfl⟩
    unfold PersistentStore.setItem PersistentStore.setItemAfterLoad
    rw [hcache]
    simp only [hget]
    simp [hget, hmode, hcache]
    rfl

end PersistentStoreModel

namespace PersistentStoreModel

/-- Witness for `c10_set_vs_setitem`: on a key holding an expiring
entry, `set` installs a fresh never-expiring persistent entry while
`__setitem__` only swaps the value. -/
theorem c10_set_vs_setitem_witness :
    ((⟨Mode.auto, some [("key", CacheObject.init 0 (.str "v") (.dtArg 50) true)],
        false, ⟨none, none, none⟩⟩ : PersistentStore).set 5 "key" (.str "w") =
      (true, ⟨Mode.auto, some [("key", CacheObject.init 5 (.str "w") .noneArg true)],
        true, ⟨none, none, none⟩⟩)) ∧
    ((⟨Mode.auto, some [("key", CacheObject.init 0 (.str "v") (.dtArg 50) true)],
        false, ⟨none, none, none⟩⟩ : PersistentStore).setItem 5 "key" (.str "w")
        noFail =
      (.done, ⟨Mode.auto,
        some [("key",
          (CacheObject.init 0 (.str "v") (.dtArg 50) true).setValue 5 (.str "w"))],
        true, ⟨none, none, none⟩⟩)) :=
  ⟨(c10_set_vs_setitem.1
      ⟨Mode.auto, some [("key", CacheObject.init 0 (.str "v") (.dtArg 50) true)],
        false, ⟨none, none, none⟩⟩
      [("key", CacheObject.init 0 (.str "v") (.dtArg 50) true)] 5 50 "key"
      (CacheObject.init 0 (.str "v") (.dtArg 50) true) (.str "w")
      rfl rfl rfl rfl).1,
   (c10_set_vs_setitem.2
      ⟨Mode.auto, some [("key", CacheObject.init 0 (.str "v") (.dtArg 50) true)],
        false, ⟨none, none, none⟩⟩
      [("key", CacheObject.init 0 (.str "v") (.dtArg 50) true)] 5 "key"
      (CacheObject.init 0 (.str "v") (.dtArg 50) true) (.str "w") noFail
      rfl rfl rfl).1⟩

end PersistentStoreModel
